import Mathlib

/-!
Verification development for the sonic-go library (time-domain audio
speed/pitch/rate/volume modifier for 16-bit PCM).

The Go source is shallowly embedded as follows:

* `float64` values are embedded as `ℚ`.  Every claim trajectory exercised
  below only performs exact operations on floats (products, quotients and
  comparisons whose outcome is unambiguous at the concrete values used, and
  quotients of the form `x / x`), so the rational model and IEEE semantics
  take the same branches there.
* `int16` samples are embedded as `ℤ`; narrowing `int16(...)` conversions
  are made explicit via `wrap16`, and Go's arithmetic right shift and
  truncating integer division via `Int.fdiv` and `Int.div`.
* A `Buffer[int16]` is embedded as the list of its unread elements
  (`buf[off:]`); growth, capacity and sliding are invisible at this level
  because they do not change the unread region.
* Go errors are an `Option GoErr`; a Go runtime panic (out-of-range slice
  index, negative reslice, truncation out of range) is the distinguished
  error `GoErr.fault`, since a panic aborts the program rather than being
  returned.
* Mutating methods become functions `state → state × result × Option GoErr`
  (the state is always returned because Go mutates in place even when an
  error follows).
-/

namespace SonicGo

/-- Error model of the embedding: `eof` is `io.EOF` (EndOfStream), `errChannels`
is `ErrChannels` (slice length not divisible by the channel count),
`chanMismatch` is the cross-buffer channel mismatch error, `fault` marks a Go
runtime panic, and `unmodelledSin` marks the sine-ramp overlap-add branch whose
transcendental float math is outside this integer/rational model (no claim
trajectory reaches it). -/
inductive GoErr where
  | eof
  | errChannels
  | chanMismatch
  | fault
  | unmodelledSin
deriving DecidableEq, Repr

/-- Go's `int16(x)` conversion for an integer `x`: two's-complement wrap-around
into `[-32768, 32767]`. -/
def wrap16 (x : ℤ) : ℤ :=
  (x + 32768) % 65536 - 32768

/-- Go's `int(f)` conversion of a `float64`: truncation toward zero. -/
def goTrunc (q : ℚ) : ℤ :=
  if 0 ≤ q then ⌊q⌋ else ⌈q⌉

/-- Go's `math.Round`: round half away from zero (the result is an integral
float; the `int(...)` conversion applied at every call site is then exact). -/
def goRound (q : ℚ) : ℤ :=
  if 0 ≤ q then ⌊q + 1 / 2⌋ else -⌊-q + 1 / 2⌋

/-! ## Generic ring buffer (`buffer.go`)

A `Buffer[int16]` is represented by the list of its unread elements.  The
count arguments keep the Go `int` type (`ℤ`); a negative count that would make
Go panic on a negative reslice is a `fault`. -/

/-- `Buffer.Len`: number of unread elements. -/
def bufferLen (buf : List ℤ) : ℤ :=
  buf.length

/-- `Buffer.Write`: append one element (growth never fails in the model). -/
def bufferWrite (buf : List ℤ) (v : ℤ) : List ℤ :=
  buf ++ [v]

/-- `Buffer.WriteSlice`: append a slice (a no-op for an empty slice). -/
def bufferWriteSlice (buf s : List ℤ) : List ℤ :=
  buf ++ s

/-- `Buffer.Read`-style zero value plus `Buffer.ReadSlice`: on an empty buffer
reset and report `io.EOF`; otherwise clamp `n` to the unread length and
consume that prefix.  Result: (new state, returned slice, error). -/
def bufferReadSlice (buf : List ℤ) (n : ℤ) : List ℤ × List ℤ × Option GoErr :=
  if buf.isEmpty then ([], [], some .eof)
  else if n < 0 then (buf, [], some .fault)
  else
    let k := min n.toNat buf.length
    (buf.drop k, buf.take k, none)

/-- `Buffer.DropSlice`: advance the read offset by `n`, clamped to the unread
length; `io.EOF` on an empty buffer.  A negative `n` would rewind the offset
into already-consumed storage, which the unread-list model cannot represent,
so it is flagged as a fault (no call site passes a negative count). -/
def bufferDropSlice (buf : List ℤ) (n : ℤ) : List ℤ × Option GoErr :=
  if buf.isEmpty then ([], some .eof)
  else if n < 0 then (buf, some .fault)
  else (buf.drop (min n.toNat buf.length), none)

/-- `Buffer.Truncate`: keep the first `n` unread elements; `Truncate 0` resets;
out-of-range `n` panics in Go. -/
def bufferTruncate (buf : List ℤ) (n : ℤ) : List ℤ × Option GoErr :=
  if n = 0 then ([], none)
  else if n < 0 ∨ (buf.length : ℤ) < n then (buf, some .fault)
  else (buf.take n.toNat, none)

/-- `Buffer.GetSlice`: like `ReadSlice` but without consuming. -/
def bufferGetSlice (buf : List ℤ) (n : ℤ) : List ℤ × Option GoErr :=
  if buf.isEmpty then ([], some .eof)
  else if n < 0 then ([], some .fault)
  else (buf.take (min n.toNat buf.length), none)

/-- `Buffer.ReadSliceAt`: return the unread tail starting at position `at` and
truncate the buffer to the prefix before it; `io.EOF` on an empty buffer,
panic when `at` is outside `[0, Len]`. -/
def bufferReadSliceAt (buf : List ℤ) (at_ : ℤ) : List ℤ × List ℤ × Option GoErr :=
  if buf.isEmpty then ([], [], some .eof)
  else if at_ < 0 ∨ (buf.length : ℤ) < at_ then (buf, [], some .fault)
  else (buf.take at_.toNat, buf.drop at_.toNat, none)

/-- `Buffer.At`: `if len(b.buf)-b.off < n` report `io.EOF`, otherwise read
`b.buf[b.off+n]`.  The guard misses the boundary `n = Len`, where the Go code
indexes one element past the live region and panics; a negative `n` reads
already-consumed storage and is likewise a fault. -/
def bufferAt (buf : List ℤ) (n : ℤ) : ℤ × Option GoErr :=
  if (buf.length : ℤ) < n then (0, some .eof)
  else if 0 ≤ n ∧ n < (buf.length : ℤ) then (buf.getD n.toNat 0, none)
  else (0, some .fault)

/-- `Buffer.WriteAt`: rewrite position `n`; the explicit guard panics when
`Len < n`, and the subsequent index panics at `n = Len` or `n < 0`. -/
def bufferWriteAt (buf : List ℤ) (n : ℤ) (v : ℤ) : List ℤ × Option GoErr :=
  if (buf.length : ℤ) < n then (buf, some .fault)
  else if 0 ≤ n ∧ n < (buf.length : ℤ) then (buf.set n.toNat v, none)
  else (buf, some .fault)

/-- `Buffer.MoveTo`: read `n` elements from `src` (clamped) and append them to
`dst`; a no-op on an empty source. -/
def bufferMoveTo (src dst : List ℤ) (n : ℤ) : List ℤ × List ℤ × Option GoErr :=
  if src.isEmpty then (src, dst, none)
  else
    match bufferReadSlice src n with
    | (src1, data, none) => (src1, dst ++ data, none)
    | (src1, _, some e) => (src1, dst, some e)

/-- `Buffer.MoveAllTo`: move the whole unread region of `src` to `dst`. -/
def bufferMoveAllTo (src dst : List ℤ) : List ℤ × List ℤ × Option GoErr :=
  if src.isEmpty then (src, dst, none)
  else
    match bufferReadSlice src src.length with
    | (src1, data, none) => (src1, dst ++ data, none)
    | (src1, _, some e) => (src1, dst, some e)

/-- `Buffer.CopyTo`: peek `n` elements from `src` (clamped) and append them to
`dst`; a no-op on an empty source.  (The source swallows a `GetSlice` error,
which the emptiness guard makes unreachable; a negative `n` still panics
inside `GetSlice`.) -/
def bufferCopyTo (src dst : List ℤ) (n : ℤ) : List ℤ × Option GoErr :=
  if src.isEmpty then (dst, none)
  else if n < 0 then (dst, some .fault)
  else (dst ++ src.take (min n.toNat src.length), none)

/-! ## Multi-channel sample buffer (`SampleBuffer`)

Every operation converts its frame counts to element counts by multiplying
with the channel count `ch` and delegates to the generic buffer. -/

/-- `SampleBuffer.Len`: number of unread frames (`elements / ch`). -/
def sampleLen (ch : ℕ) (buf : List ℤ) : ℕ :=
  buf.length / ch

/-- `SampleBuffer.WriteSlice`: append, rejecting slices whose length is not a
multiple of the channel count (`ErrChannels`). -/
def sampleWriteSlice (ch : ℕ) (buf s : List ℤ) : List ℤ × Option GoErr :=
  if s.length % ch ≠ 0 then (buf, some .errChannels)
  else (bufferWriteSlice buf s, none)

/-- `SampleBuffer.WriteEmpty`: append `n` zero frames, returning the frame
index of the first appended frame (the pre-call `Len`).  The zero frames are
written through `Buffer.WriteSlice` directly, bypassing the channel check.
A negative `n` would reslice `b.empty[:n*ch]` negatively and panic. -/
def sampleWriteEmpty (ch : ℕ) (buf : List ℤ) (n : ℤ) : List ℤ × ℕ × Option GoErr :=
  if n < 0 then (buf, sampleLen ch buf, some .fault)
  else (bufferWriteSlice buf (List.replicate (n.toNat * ch) 0), sampleLen ch buf, none)

/-- `SampleBuffer.ReadSlice` (frames). -/
def sampleReadSlice (ch : ℕ) (buf : List ℤ) (n : ℤ) : List ℤ × List ℤ × Option GoErr :=
  bufferReadSlice buf (n * ch)

/-- `SampleBuffer.GetSlice` (frames). -/
def sampleGetSlice (ch : ℕ) (buf : List ℤ) (n : ℤ) : List ℤ × Option GoErr :=
  bufferGetSlice buf (n * ch)

/-- `SampleBuffer.ReadSliceAt` (frames). -/
def sampleReadSliceAt (ch : ℕ) (buf : List ℤ) (n : ℤ) : List ℤ × List ℤ × Option GoErr :=
  bufferReadSliceAt buf (n * ch)

/-- `SampleBuffer.DropSlice` (frames). -/
def sampleDropSlice (ch : ℕ) (buf : List ℤ) (n : ℤ) : List ℤ × Option GoErr :=
  bufferDropSlice buf (n * ch)

/-- `SampleBuffer.Truncate` (frames). -/
def sampleTruncate (ch : ℕ) (buf : List ℤ) (n : ℤ) : List ℤ × Option GoErr :=
  bufferTruncate buf (n * ch)

/-- `SampleBuffer.Flush`: read and return the whole unread region. -/
def sampleFlush (buf : List ℤ) : List ℤ × List ℤ × Option GoErr :=
  bufferReadSlice buf buf.length

/-- `SampleBuffer.GetChannel` with the error discarded, as at every DSP call
site (`dv, _ := ...`): the Go zero value `0` is produced on `io.EOF`.  The
call sites index strictly below `Len`, so the panicking branches of
`Buffer.At` (which this models as `0` as well) are unreachable there. -/
def sampleGetChannelD (ch : ℕ) (buf : List ℤ) (at_ c : ℤ) : ℤ :=
  (bufferAt buf (at_ * ch + c)).1

/-- `SampleBuffer.SetChannel` (`Buffer.WriteAt`): the DSP call sites only
write frames that exist, so the panicking branch (modelled as leaving the
buffer unchanged) is unreachable there. -/
def sampleSetChannelD (ch : ℕ) (buf : List ℤ) (at_ c v : ℤ) : List ℤ :=
  (bufferWriteAt buf (at_ * ch + c) v).1

/-- `scaleInt16`: fixed-point volume scaling of one sample.  `>> 8` is Go's
arithmetic right shift (floor division by 256), and the result is clamped to
the `int16` range before the final (then lossless) `int16` conversion. -/
def scaleInt16 (volume sample : ℤ) : ℤ :=
  let val := Int.fdiv (volume * sample) 256
  if val > 32767 then wrap16 32767
  else if val < -32768 then wrap16 (-32768)
  else wrap16 val

/-- `SampleBuffer.Scale`: split the buffer at frame `at`, scale the detached
tail sample-wise with `scaleInt16`, and append it back with `WriteSlice`. -/
def sampleScale (ch : ℕ) (buf : List ℤ) (at_ factor : ℤ) : List ℤ × Option GoErr :=
  match bufferReadSliceAt buf (at_ * ch) with
  | (buf1, slice, none) => sampleWriteSlice ch buf1 (slice.map (scaleInt16 factor))
  | (buf1, _, some e) => (buf1, some e)

/-- `SampleBuffer.AddSamples`: plain `WriteSlice`. -/
def sampleAddSamples (ch : ℕ) (buf s : List ℤ) : List ℤ × Option GoErr :=
  sampleWriteSlice ch buf s

/-- Go's `int16(f)` for `float64` input: truncation toward zero followed by
the narrowing conversion.  (For out-of-range floats Go's behaviour is
implementation-specific; the documented input domain `[-1, 1]` stays in
range, where this is exact.) -/
def goFloatToInt16 (q : ℚ) : ℤ :=
  wrap16 (goTrunc q)

/-- `SampleBuffer.AddFloatSamples`: each float64 is scaled by `32767` and
converted to `int16`; the slice length must be a multiple of `ch`. -/
def sampleAddFloatSamples (ch : ℕ) (buf : List ℤ) (s : List ℚ) : List ℤ × Option GoErr :=
  if s.length % ch ≠ 0 then (buf, some .errChannels)
  else (buf ++ s.map (fun q => goFloatToInt16 (q * 32767)), none)

/-- `SampleBuffer.AddByteSamples`: each `uint8` is biased by `-128` and
shifted left by 8; the slice length must be a multiple of `ch`. -/
def sampleAddByteSamples (ch : ℕ) (buf : List ℤ) (s : List ℤ) : List ℤ × Option GoErr :=
  if s.length % ch ≠ 0 then (buf, some .errChannels)
  else (buf ++ s.map (fun u => (u - 128) * 256), none)

/-- `crossFade buf tail` (old zero-copy fast path): for `i < len(tail)`,
`buf[i] = int16((tail[i]*(l-i) + buf[i]*i) / l)` with `l = len(tail)` and
Go's truncating integer division; positions past `l` are unchanged.  The
source indexes `buf[i]`, so it requires `len(buf) ≥ len(tail)`. -/
def crossFade (buf tail : List ℤ) : List ℤ :=
  let l := tail.length
  (List.range buf.length).map fun i =>
    if i < l then
      wrap16 ((tail.getD i 0 * ((l : ℤ) - i) + buf.getD i 0 * i) / l)
    else buf.getD i 0

/-! ## Constants and the `Sonic` stream state (`sonic.go`) -/

/-- `MinPitch = 65`. -/
def MinPitch : ℕ := 65

/-- `MaxPitch = 400`. -/
def MaxPitch : ℕ := 400

/-- `AmdfFreq = 4000`. -/
def AmdfFreq : ℕ := 4000

/-- `SincFilterPoints = 12`. -/
def SincFilterPoints : ℕ := 12

/-- `SincTableSize = 601`. -/
def SincTableSize : ℕ := 601

/-- `ShrtMax = 32767`. -/
def ShrtMax : ℤ := 32767

/-- `ShrtMin = -32768`. -/
def ShrtMin : ℤ := -32768

/-- The inner `Sonic` engine state.  Buffers are unread-element lists; the
capacity hints computed by `NewSonic` have no observable effect in the
unread-list model and are omitted. -/
structure Sonic where
  inputBuffer : List ℤ
  outputBuffer : List ℤ
  pitchBuffer : List ℤ
  downSampleBuffer : List ℤ
  speed : ℚ
  volume : ℚ
  pitch : ℚ
  rate : ℚ
  erate : ℚ
  samplePeriod : ℚ
  inputPlaytime : ℚ
  timeError : ℚ
  oldRatePosition : ℤ
  newRatePosition : ℤ
  quality : Bool
  numChannels : ℕ
  minPeriod : ℕ
  maxPeriod : ℕ
  maxRequired : ℕ
  sampleRate : ℕ
  prevPeriod : ℤ
  prevMinDiff : ℤ
  useSinOverlap : Bool
deriving DecidableEq, Repr

/-- Frames currently unread in the input buffer (`Sonic.inputSamplesLen`). -/
def sonicInputFrames (s : Sonic) : ℕ :=
  sampleLen s.numChannels s.inputBuffer

/-- Frames currently unread in the output buffer. -/
def sonicOutputFrames (s : Sonic) : ℕ :=
  sampleLen s.numChannels s.outputBuffer

/-- Frames currently unread in the pitch buffer. -/
def sonicPitchFrames (s : Sonic) : ℕ :=
  sampleLen s.numChannels s.pitchBuffer

/-- `NewSonic(sampleRate, numChannels)`: derived periods use Go's truncating
integer division (exact on naturals); all ratios default to 1 and the mutable
state to zero values. -/
def newSonic (sampleRate numChannels : ℕ) : Sonic :=
  let minPeriod := sampleRate / MaxPitch
  let maxPeriod := sampleRate / MinPitch
  let maxRequired := 2 * maxPeriod
  { inputBuffer := []
    outputBuffer := []
    pitchBuffer := []
    downSampleBuffer := []
    speed := 1
    volume := 1
    pitch := 1
    rate := 1
    erate := 1
    samplePeriod := 1 / (sampleRate : ℚ)
    inputPlaytime := 0
    timeError := 0
    oldRatePosition := 0
    newRatePosition := 0
    quality := false
    numChannels := numChannels
    minPeriod := minPeriod
    maxPeriod := maxPeriod
    maxRequired := maxRequired
    sampleRate := sampleRate
    prevPeriod := 0
    prevMinDiff := 0
    useSinOverlap := false }

/-- `Sonic.updateInputPlaytime`. -/
def updateInputPlaytime (s : Sonic) : Sonic :=
  { s with inputPlaytime :=
      (sonicInputFrames s : ℚ) * s.samplePeriod * s.pitch / s.speed }

/-- `Sonic.SetSpeed`. -/
def setSpeed (s : Sonic) (speed : ℚ) : Sonic :=
  updateInputPlaytime { s with speed := speed }

/-- `Sonic.SetPitch`: also refreshes the cached `erate`. -/
def setPitch (s : Sonic) (pitch : ℚ) : Sonic :=
  { s with pitch := pitch, erate := s.rate * pitch }

/-- `Sonic.SetRate`: refreshes `erate` and resets both rate positions. -/
def setRate (s : Sonic) (rate : ℚ) : Sonic :=
  { s with
    rate := rate
    erate := rate * s.pitch
    oldRatePosition := 0
    newRatePosition := 0 }

/-- `Sonic.SetVolume`. -/
def setVolume (s : Sonic) (volume : ℚ) : Sonic :=
  { s with volume := volume }

/-- `Sonic.SetQuality`. -/
def setQuality (s : Sonic) (quality : Bool) : Sonic :=
  { s with quality := quality }

/-- `Sonic.SetUseSinOverlap`. -/
def setUseSinOverlap (s : Sonic) (b : Bool) : Sonic :=
  { s with useSinOverlap := b }

/-- `Sonic.computeSkip`. -/
def computeSkip (s : Sonic) : ℕ :=
  if s.sampleRate > AmdfFreq ∧ ¬s.quality then s.sampleRate / AmdfFreq else 1

set_option maxHeartbeats 1600000 in
/-- The 601-entry Hann-windowed sinc lookup table (`SincTable`), transcribed
verbatim from the source. -/
def SincTable : List ℤ := [
    0, 0, 0, 0, 0, 0, 0, -1, -1, -2,
    -2, -3, -4, -6, -7, -9, -10, -12, -14, -17,
    -19, -21, -24, -26, -29, -32, -34, -37, -40, -42,
    -44, -47, -48, -50, -51, -52, -53, -53, -53, -52,
    -50, -48, -46, -43, -39, -34, -29, -22, -16, -8,
    0, 9, 19, 29, 41, 53, 65, 79, 92, 107,
    121, 137, 152, 168, 184, 200, 215, 231, 247, 262,
    276, 291, 304, 317, 328, 339, 348, 357, 363, 369,
    372, 374, 375, 373, 369, 363, 355, 345, 332, 318,
    300, 281, 259, 234, 208, 178, 147, 113, 77, 39,
    0, -41, -85, -130, -177, -225, -274, -324, -375, -426,
    -478, -530, -581, -632, -682, -731, -779, -825, -870, -912,
    -951, -989, -1023, -1053, -1080, -1104, -1123, -1138, -1149, -1154,
    -1155, -1151, -1141, -1125, -1105, -1078, -1046, -1007, -963, -913,
    -857, -796, -728, -655, -576, -492, -403, -309, -210, -107,
    0, 111, 225, 342, 462, 584, 708, 833, 958, 1084,
    1209, 1333, 1455, 1575, 1693, 1807, 1916, 2022, 2122, 2216,
    2304, 2384, 2457, 2522, 2579, 2625, 2663, 2689, 2706, 2711,
    2705, 2687, 2657, 2614, 2559, 2491, 2411, 2317, 2211, 2092,
    1960, 1815, 1658, 1489, 1308, 1115, 912, 698, 474, 241,
    0, -249, -506, -769, -1037, -1310, -1586, -1864, -2144, -2424,
    -2703, -2980, -3254, -3523, -3787, -4043, -4291, -4529, -4757, -4972,
    -5174, -5360, -5531, -5685, -5819, -5935, -6029, -6101, -6150, -6175,
    -6175, -6149, -6096, -6015, -5905, -5767, -5599, -5401, -5172, -4912,
    -4621, -4298, -3944, -3558, -3141, -2693, -2214, -1705, -1166, -597,
    0, 625, 1277, 1955, 2658, 3386, 4135, 4906, 5697, 6506,
    7332, 8173, 9027, 9893, 10769, 11654, 12544, 13439, 14335, 15232,
    16128, 17019, 17904, 18782, 19649, 20504, 21345, 22170, 22977, 23763,
    24527, 25268, 25982, 26669, 27327, 27953, 28547, 29107, 29632, 30119,
    30569, 30979, 31349, 31678, 31964, 32208, 32408, 32565, 32677, 32744,
    32767, 32744, 32677, 32565, 32408, 32208, 31964, 31678, 31349, 30979,
    30569, 30119, 29632, 29107, 28547, 27953, 27327, 26669, 25982, 25268,
    24527, 23763, 22977, 22170, 21345, 20504, 19649, 18782, 17904, 17019,
    16128, 15232, 14335, 13439, 12544, 11654, 10769, 9893, 9027, 8173,
    7332, 6506, 5697, 4906, 4135, 3386, 2658, 1955, 1277, 625,
    0, -597, -1166, -1705, -2214, -2693, -3141, -3558, -3944, -4298,
    -4621, -4912, -5172, -5401, -5599, -5767, -5905, -6015, -6096, -6149,
    -6175, -6175, -6150, -6101, -6029, -5935, -5819, -5685, -5531, -5360,
    -5174, -4972, -4757, -4529, -4291, -4043, -3787, -3523, -3254, -2980,
    -2703, -2424, -2144, -1864, -1586, -1310, -1037, -769, -506, -249,
    0, 241, 474, 698, 912, 1115, 1308, 1489, 1658, 1815,
    1960, 2092, 2211, 2317, 2411, 2491, 2559, 2614, 2657, 2687,
    2705, 2711, 2706, 2689, 2663, 2625, 2579, 2522, 2457, 2384,
    2304, 2216, 2122, 2022, 1916, 1807, 1693, 1575, 1455, 1333,
    1209, 1084, 958, 833, 708, 584, 462, 342, 225, 111,
    0, -107, -210, -309, -403, -492, -576, -655, -728, -796,
    -857, -913, -963, -1007, -1046, -1078, -1105, -1125, -1141, -1151,
    -1155, -1154, -1149, -1138, -1123, -1104, -1080, -1053, -1023, -989,
    -951, -912, -870, -825, -779, -731, -682, -632, -581, -530,
    -478, -426, -375, -324, -274, -225, -177, -130, -85, -41,
    0, 39, 77, 113, 147, 178, 208, 234, 259, 281,
    300, 318, 332, 345, 355, 363, 369, 373, 375, 374,
    372, 369, 363, 357, 348, 339, 328, 317, 304, 291,
    276, 262, 247, 231, 215, 200, 184, 168, 152, 137,
    121, 107, 92, 79, 65, 53, 41, 29, 19, 9,
    0, -8, -16, -22, -29, -34, -39, -43, -46, -48,
    -50, -52, -53, -53, -53, -52, -51, -50, -48, -47,
    -44, -42, -40, -37, -34, -32, -29, -26, -24, -21,
    -19, -17, -14, -12, -10, -9, -7, -6, -4, -3,
    -2, -2, -1, -1, 0, 0, 0, 0, 0, 0,
    0
]

/-- `findSincCoefficient i rOff width`: table lookup with linear
interpolation.  (`rOff` is the source's `ratio` argument.)  All divisions are
Go's truncating integer division; out-of-range table indices, which would
panic in Go, read as 0 here and are unreachable from the guarded call site. -/
def findSincCoefficient (i rOff width : ℤ) : ℤ :=
  let lobePoints : ℤ := ((SincTableSize : ℤ) - 1) / (SincFilterPoints : ℤ)
  let left := i * lobePoints + (rOff * lobePoints) / width
  let position := i * lobePoints * width + rOff * lobePoints - left * width
  ((List.getD SincTable left.toNat 0 * (width - position) +
      List.getD SincTable (left + 1).toNat 0 * position) * 2) / width

/-- `getSign`: 1 for non-negative values, -1 otherwise. -/
def getSign (value : ℤ) : ℤ :=
  if value ≥ 0 then 1 else -1

/-! ## Cross-buffer operations of `SampleBuffer` -/

/-- `SampleBuffer.MoveTo`: fails with the channel-mismatch error when the
destination has a different channel count, else moves `n` frames. -/
def sampleMoveTo (chSrc chDst : ℕ) (src dst : List ℤ) (n : ℤ) :
    List ℤ × List ℤ × Option GoErr :=
  if chSrc ≠ chDst then (src, dst, some .chanMismatch)
  else bufferMoveTo src dst (n * chSrc)

/-- `SampleBuffer.MoveAllTo`: channel check, then move everything. -/
def sampleMoveAllTo (chSrc chDst : ℕ) (src dst : List ℤ) :
    List ℤ × List ℤ × Option GoErr :=
  if chSrc ≠ chDst then (src, dst, some .chanMismatch)
  else bufferMoveAllTo src dst

/-- `SampleBuffer.CopyTo`: channel check, then copy `n` frames. -/
def sampleCopyTo (chSrc chDst : ℕ) (src dst : List ℤ) (n : ℤ) :
    List ℤ × Option GoErr :=
  if chSrc ≠ chDst then (dst, some .chanMismatch)
  else bufferCopyTo src dst (n * chSrc)

/-! ## Pitch-period detection (AMDF, the inlined C kernel) -/

/-- One AMDF difference: `Σ_{i<period} |samples[i] - samples[i+period]|`.
Out-of-range reads (impossible from the guarded call sites, which always
supply `2*maxP` samples) read as 0. -/
def amdfDiff (samples : List ℤ) (period : ℕ) : ℤ :=
  ((List.range period).map
    (fun i => |samples.getD i 0 - samples.getD (i + period) 0|)).sum

/-- Accumulator of the C `findPitchPeriod` loop. -/
structure AmdfAcc where
  bestPeriod : ℤ
  worstPeriod : ℤ
  minDiff : ℤ
  maxDiff : ℤ
deriving DecidableEq, Repr

/-- One iteration of the C loop body at a given period. -/
def amdfStep (samples : List ℤ) (acc : AmdfAcc) (period : ℤ) : AmdfAcc :=
  let diff := amdfDiff samples period.toNat
  let acc1 :=
    if acc.bestPeriod = 0 ∨ diff * acc.bestPeriod < acc.minDiff * period then
      { acc with minDiff := diff, bestPeriod := period }
    else acc
  if diff * acc1.worstPeriod > acc1.maxDiff * period then
    { acc1 with maxDiff := diff, worstPeriod := period }
  else acc1

/-- The C kernel `findPitchPeriod(samples, minP, maxP)`: scan all periods in
`[minP, maxP]`, then report `(bestPeriod, minDiff/bestPeriod,
maxDiff/worstPeriod)`.  Division by a zero `bestPeriod` is undefined
behaviour in C and yields 0 here; it cannot happen for the non-degenerate
ranges produced by the call sites. -/
def findPitchPeriodKernel (samples : List ℤ) (minP maxP : ℤ) : ℤ × ℤ × ℤ :=
  let periods := (List.range (maxP - minP + 1).toNat).map (fun k => minP + k)
  let acc := periods.foldl (amdfStep samples)
    { bestPeriod := 0, worstPeriod := 255, minDiff := 1, maxDiff := 0 }
  (acc.bestPeriod, acc.minDiff / acc.bestPeriod, acc.maxDiff / acc.worstPeriod)

/-- `findPitchPeriodInRange(b, minP, maxP)`: peek `2*maxP` frames (the
`GetSlice` error is discarded by the source; the guarded call sites always
hold enough frames) and run the kernel. -/
def findPitchPeriodInRange (ch : ℕ) (buf : List ℤ) (minP maxP : ℤ) : ℤ × ℤ × ℤ :=
  let samples := (sampleGetSlice ch buf (2 * maxP)).1
  findPitchPeriodKernel samples minP maxP

/-- `Sonic.prevPeriodBetter`, as a pure function of the stream fields it
reads (`prevPeriod`, `prevMinDiff`) and its arguments. -/
def prevPeriodBetter (prevPeriod prevMinDiff minDiff maxDiff : ℤ)
    (preferNewPeriod : Bool) : Bool :=
  if minDiff = 0 ∨ prevPeriod = 0 then false
  else if preferNewPeriod then
    if maxDiff > minDiff * 3 then false
    else if minDiff * 2 ≤ prevMinDiff * 3 then false
    else true
  else
    if minDiff ≤ prevMinDiff then false
    else true

/-- `Sonic.downSampleInput(skip)`: reset the down-sample buffer, peek
`maxRequired` frames of input, and write one mono sample per `skip*ch`
consecutive elements (truncating integer division of their sum). -/
def downSampleInput (s : Sonic) (skip : ℕ) : Sonic × Option GoErr :=
  let n := s.maxRequired / skip
  let s0 := { s with downSampleBuffer := (sampleTruncate 1 s.downSampleBuffer 0).1 }
  match sampleGetSlice s0.numChannels s0.inputBuffer (s.maxRequired : ℤ) with
  | (_, some e) => (s0, some e)
  | (buf, none) =>
    let skipCh := skip * s0.numChannels
    let dsb := (List.range n).map (fun i =>
      wrap16 ((((List.range skipCh).map
        (fun j => buf.getD (i * skipCh + j) 0)).sum) / (skipCh : ℤ)))
    ({ s0 with downSampleBuffer := dsb }, none)

/-- `Sonic.findPitchPeriod(preferNewPeriod)`: the search (direct, or
down-sampled and then refined at full resolution), followed by the
previous-period hysteresis and the update of `prevPeriod`/`prevMinDiff`.
Returns the chosen period. -/
def findPitchPeriodSearch (s : Sonic) : Sonic × ℤ × ℤ × ℤ × Option GoErr :=
  let minPeriod : ℤ := s.minPeriod
  let maxPeriod : ℤ := s.maxPeriod
  let skip := computeSkip s
  if s.numChannels = 1 ∧ skip = 1 then
    let (p, mn, mx) := findPitchPeriodInRange s.numChannels s.inputBuffer minPeriod maxPeriod
    (s, p, mn, mx, none)
  else
    match downSampleInput s skip with
    | (s1, some e) => (s1, 0, 0, 0, some e)
    | (s1, none) =>
      let (p, mn, mx) := findPitchPeriodInRange 1 s1.downSampleBuffer
        (minPeriod / skip) (maxPeriod / skip)
      if skip ≠ 1 then
        let period := p * skip
        let minP0 := period - (skip * 4 : ℕ)
        let maxP0 := period + (skip * 4 : ℕ)
        let minP1 := if minP0 < minPeriod then minPeriod else minP0
        let maxP1 := if maxP0 > maxPeriod then maxPeriod else maxP0
        if s1.numChannels = 1 then
          let (p2, mn2, mx2) := findPitchPeriodInRange s1.numChannels s1.inputBuffer minP1 maxP1
          (s1, p2, mn2, mx2, none)
        else
          match downSampleInput s1 1 with
          | (s2, some e) => (s2, 0, 0, 0, some e)
          | (s2, none) =>
            let (p2, mn2, mx2) := findPitchPeriodInRange 1 s2.downSampleBuffer minP1 maxP1
            (s2, p2, mn2, mx2, none)
      else (s1, p, mn, mx, none)

def findPitchPeriod (s : Sonic) (preferNewPeriod : Bool) : Sonic × ℤ × Option GoErr :=
  match findPitchPeriodSearch s with
  | (s1, _, _, _, some e) => (s1, 0, some e)
  | (s1, period, minDiff, maxDiff, none) =>
    let ret :=
      if prevPeriodBetter s1.prevPeriod s1.prevMinDiff minDiff maxDiff preferNewPeriod
      then s1.prevPeriod else period
    ({ s1 with prevMinDiff := minDiff, prevPeriod := period }, ret, none)

/-! ## PICOLA speed changer -/

/-- `Sonic.overlapAdd(numSamples, period)`: append `numSamples` zero frames,
then fill them with the linear cross-fade of `input[i]` (ramping down) and
`input[i+period]` (ramping up), with Go's truncating integer division and the
final `int16` conversion.  The `useSinOverlap` branch computes a sine ramp
with transcendental floating-point math, which this integer/rational model
does not represent; it is reported as `unmodelledSin` (no claim trajectory
enables it). -/
def overlapAdd (s : Sonic) (numSamples period : ℤ) : Sonic × Option GoErr :=
  match sampleWriteEmpty s.numChannels s.outputBuffer numSamples with
  | (out1, _, some e) => ({ s with outputBuffer := out1 }, some e)
  | (out1, cur, none) =>
    if s.useSinOverlap then ({ s with outputBuffer := out1 }, some .unmodelledSin)
    else
      let ch := s.numChannels
      let out2 := (List.range numSamples.toNat).foldl (fun out i =>
        (List.range ch).foldl (fun out c =>
          let dv := sampleGetChannelD ch s.inputBuffer (i : ℤ) (c : ℤ)
          let uv := sampleGetChannelD ch s.inputBuffer ((i : ℤ) + period) (c : ℤ)
          sampleSetChannelD ch out ((cur : ℤ) + (i : ℤ)) (c : ℤ)
            (wrap16 ((dv * (numSamples - (i : ℤ)) + uv * (i : ℤ)) / numSamples))) out) out1
      ({ s with outputBuffer := out2 }, none)

/-- `Sonic.skipPitchPeriod(speed, period)`: for `speed ≥ 2` only a rounded
fraction of the period is cross-faded; `newSamples + period` input frames are
then dropped.  Returns the number of output samples produced. -/
def skipPitchPeriod (s : Sonic) (speed : ℚ) (period : ℤ) : Sonic × ℤ × Option GoErr :=
  let newSamples : ℤ :=
    if speed ≥ 2 then goRound ((period : ℚ) / (speed - 1)) else period
  match overlapAdd s newSamples period with
  | (s1, some e) => (s1, 0, some e)
  | (s1, none) =>
    match sampleDropSlice s1.numChannels s1.inputBuffer (newSamples + period) with
    | (inp, some e) => ({ s1 with inputBuffer := inp }, 0, some e)
    | (inp, none) => ({ s1 with inputBuffer := inp }, newSamples, none)

/-- `Sonic.insertPitchPeriod(speed, period)`: copy one period unmodified,
cross-fade `newSamples` additional frames, then drop `newSamples` input
frames.  `int(...)` truncates toward zero. -/
def insertPitchPeriod (s : Sonic) (speed : ℚ) (period : ℤ) : Sonic × ℤ × Option GoErr :=
  let newSamples : ℤ :=
    if speed ≤ 1 / 2 then goTrunc ((period : ℚ) * speed / (1 - speed)) else period
  match sampleCopyTo s.numChannels s.numChannels s.inputBuffer s.outputBuffer period with
  | (out1, some e) => ({ s with outputBuffer := out1 }, 0, some e)
  | (out1, none) =>
    match overlapAdd { s with outputBuffer := out1 } newSamples period with
    | (s1, some e) => (s1, 0, some e)
    | (s1, none) =>
      match sampleDropSlice s1.numChannels s1.inputBuffer newSamples with
      | (inp, some e) => ({ s1 with inputBuffer := inp }, 0, some e)
      | (inp, none) => ({ s1 with inputBuffer := inp }, newSamples, none)

/-- `Sonic.moveInputToOutput`: clear `inputPlaytime` and move everything. -/
def moveInputToOutput (s : Sonic) : Sonic × Option GoErr :=
  let s0 := { s with inputPlaytime := 0 }
  match sampleMoveAllTo s0.numChannels s0.numChannels s0.inputBuffer s0.outputBuffer with
  | (inp, out, e) => ({ s0 with inputBuffer := inp, outputBuffer := out }, e)

/-- `Sonic.moveUnmodifiedSamples(speed)`: move
`round(1 - timeError*speed/(samplePeriod*(speed-1)))` frames unmodified
(clamped to the input length), then advance `timeError`. -/
def moveUnmodifiedSamples (s : Sonic) (speed : ℚ) : Sonic × Option GoErr :=
  let inputToCopy : ℤ :=
    goRound (1 - s.timeError * speed / (s.samplePeriod * (speed - 1)))
  if inputToCopy > (sonicInputFrames s : ℤ) then
    let inputToCopyFloat : ℚ := (sonicInputFrames s : ℚ)
    match sampleMoveAllTo s.numChannels s.numChannels s.inputBuffer s.outputBuffer with
    | (inp, out, e) =>
      ({ s with
          inputBuffer := inp
          outputBuffer := out
          timeError := s.timeError + inputToCopyFloat * s.samplePeriod * (speed - 1) / speed }, e)
  else
    let inputToCopyFloat : ℚ := (inputToCopy : ℚ)
    match sampleMoveTo s.numChannels s.numChannels s.inputBuffer s.outputBuffer inputToCopy with
    | (inp, out, e) =>
      ({ s with
          inputBuffer := inp
          outputBuffer := out
          timeError := s.timeError + inputToCopyFloat * s.samplePeriod * (speed - 1) / speed }, e)

/-- The body of `Sonic.changeSpeed`'s `for {}` loop, with explicit fuel.
Each iteration that neither returns nor breaks strictly consumes input
frames, so the fuel chosen by `changeSpeed` (input length + 1) can only run
out on states where the Go loop itself would not terminate (then: `fault`).
The loop-carried `newSamples` starts at 0 and keeps its previous value
across copy-unmodified iterations, exactly as the Go variable does. -/
def changeSpeedStep (speed playtime : ℚ) (samplesNum : ℕ) (s1 : Sonic) (period : ℤ) :
    Sonic × ℤ × Option GoErr :=
  if speed > 1 then
    match skipPitchPeriod s1 speed period with
    | (s2, _, some e) => (s2, 0, some e)
    | (s2, ns, none) =>
      if speed < 2 then
        ({ s2 with timeError := s2.timeError + (ns : ℚ) * s2.samplePeriod -
            ((period + ns : ℤ) : ℚ) * playtime / (samplesNum : ℚ) }, ns, none)
      else (s2, ns, none)
  else
    match insertPitchPeriod s1 speed period with
    | (s2, _, some e) => (s2, 0, some e)
    | (s2, ns, none) =>
      if speed > 1 / 2 then
        ({ s2 with timeError := s2.timeError + ((period + ns : ℤ) : ℚ) * s2.samplePeriod -
            (ns : ℚ) * playtime / (samplesNum : ℚ) }, ns, none)
      else (s2, ns, none)

def changeSpeedLoop (speed playtime : ℚ) (samplesNum : ℕ) :
    ℕ → ℤ → Sonic → Sonic × Option GoErr
  | 0, _, s => (s, some .fault)
  | Nat.succ fuel, newSamples, s =>
    if (speed > 1 ∧ speed < 2 ∧ s.timeError < 0) ∨
        (speed < 1 ∧ speed > 1 / 2 ∧ s.timeError > 0) then
      match moveUnmodifiedSamples s speed with
      | (s1, some e) => (s1, some e)
      | (s1, none) =>
        if newSamples = 0 then (s1, none)
        else if sonicInputFrames s1 < s1.maxRequired then
          ({ s1 with inputPlaytime :=
              playtime * (sonicInputFrames s1 : ℚ) / (samplesNum : ℚ) }, none)
        else changeSpeedLoop speed playtime samplesNum fuel newSamples s1
    else
      match findPitchPeriod s true with
      | (s1, _, some e) => (s1, some e)
      | (s1, period, none) =>
        match changeSpeedStep speed playtime samplesNum s1 period with
        | (s2, _, some e) => (s2, some e)
        | (s2, ns, none) =>
          if ns = 0 then (s2, none)
          else if sonicInputFrames s2 < s2.maxRequired then
            ({ s2 with inputPlaytime :=
                playtime * (sonicInputFrames s2 : ℚ) / (samplesNum : ℚ) }, none)
          else changeSpeedLoop speed playtime samplesNum fuel ns s2

/-- `Sonic.changeSpeed(speed)`: no-op below `maxRequired` input frames, else
run the PICOLA loop.  The final proportional `inputPlaytime` rescale happens
only on the loop's break path (inside `changeSpeedLoop`); the
`newSamples == 0` early return skips it. -/
def changeSpeed (s : Sonic) (speed : ℚ) : Sonic × Option GoErr :=
  if sonicInputFrames s < s.maxRequired then (s, none)
  else
    let playtime := s.inputPlaytime
    let samplesNum := sonicInputFrames s
    changeSpeedLoop speed playtime samplesNum (s.inputBuffer.length + 1) 0 s

/-! ## Rate changer (windowed sinc) -/

/-- `Sonic.interpolatePitchValue(n, c, old, new)`: 12-tap windowed-sinc dot
product over the pitch buffer with the Go overflow bookkeeping (`rOff` is the
source's `ratio` variable); saturate on a recorded overflow, else take
`int16(total >> 16)`. -/
def interpolatePitchValue (s : Sonic) (n c old new : ℤ) : ℤ :=
  let position := s.newRatePosition * old
  let leftPosition := s.oldRatePosition * new
  let rightPosition := (s.oldRatePosition + 1) * new
  let rOff := rightPosition - position - 1
  let width := rightPosition - leftPosition
  let acc := (List.range SincFilterPoints).foldl
    (fun (acc : ℤ × ℤ) k =>
      let weight := findSincCoefficient (k : ℤ) rOff width
      let chvalue := sampleGetChannelD s.numChannels s.pitchBuffer (n + (k : ℤ)) c
      let value := chvalue * weight
      let oldSign := getSign acc.2
      let total1 := acc.2 + value
      let oc1 :=
        if oldSign ≠ getSign total1 ∧ getSign value = oldSign then acc.1 + oldSign
        else acc.1
      (oc1, total1)) (0, 0)
  if acc.1 > 0 then ShrtMax
  else if acc.1 < 0 then ShrtMin
  else wrap16 (Int.fdiv acc.2 65536)

/-- `Sonic.interpolatePitch(i, old, new)`: append one empty output frame,
fill each of its channels with the interpolated value, then advance
`newRatePosition`.  (The `WriteEmpty` error return is discarded by the
source; a count of 1 never fails.) -/
def interpolatePitch (s : Sonic) (i old new : ℤ) : Sonic × Option GoErr :=
  match sampleWriteEmpty s.numChannels s.outputBuffer 1 with
  | (out1, cur, _) =>
    let ch := s.numChannels
    let out2 := (List.range ch).foldl (fun out c =>
      sampleSetChannelD ch out (cur : ℤ) (c : ℤ)
        (interpolatePitchValue s i (c : ℤ) old new)) out1
    ({ s with outputBuffer := out2, newRatePosition := s.newRatePosition + 1 }, none)

/-- The inner `for (oldRatePosition+1)*new > newRatePosition*old` loop of
`adjustRate`, with fuel.  Each iteration advances `newRatePosition`, so the
fuel computed by the caller bounds it whenever `old ≥ 1` (always true:
`oldSampleRate` is a positive sample rate after halving). -/
def adjustRateInner (old new i : ℤ) : ℕ → Sonic → Sonic × Option GoErr
  | 0, s => (s, some .fault)
  | Nat.succ fuel, s =>
    if (s.oldRatePosition + 1) * new > s.newRatePosition * old then
      match interpolatePitch s i old new with
      | (s1, some e) => (s1, some e)
      | (s1, none) => adjustRateInner old new i fuel s1
    else (s, none)

/-- The outer `for i := 0; i < blen; i++` loop of `adjustRate`: run the inner
emission loop, then advance `oldRatePosition`. -/
def adjustRateOuter (old new : ℤ) : ℕ → ℤ → Sonic → Sonic × Option GoErr
  | 0, _, s => (s, none)
  | Nat.succ rem, i, s =>
    let fuel := ((s.oldRatePosition + 1) * new - s.newRatePosition * old).toNat + 1
    match adjustRateInner old new i fuel s with
    | (s1, some e) => (s1, some e)
    | (s1, none) =>
      adjustRateOuter old new rem (i + 1)
        { s1 with oldRatePosition := s1.oldRatePosition + 1 }

/-- The halving loop of `adjustRate`: shift both rates right until each is at
most `1 << 14`.  64 fuel always suffices for 64-bit integers (each pass
halves both values). -/
def halveRates : ℕ → ℤ × ℤ → ℤ × ℤ
  | 0, p => p
  | Nat.succ fuel, (old, newR) =>
    if newR > 16384 ∨ old > 16384 then halveRates fuel (Int.fdiv old 2, Int.fdiv newR 2)
    else (old, newR)

/-- `Sonic.adjustRate(rate, slice)`: derive the reduced sample-rate pair,
append the freshly produced frames to the pitch buffer, emit interpolated
output while at least `SincFilterPoints` look-ahead frames remain, then drop
the consumed pitch frames. -/
def adjustRate (s : Sonic) (rate : ℚ) (slice : List ℤ) : Sonic × Option GoErr :=
  let pair := halveRates 64 ((s.sampleRate : ℤ), goTrunc ((s.sampleRate : ℚ) / rate))
  let old := pair.1
  let newR := pair.2
  match sampleWriteSlice s.numChannels s.pitchBuffer slice with
  | (pb, some e) => ({ s with pitchBuffer := pb }, some e)
  | (pb, none) =>
    let s1 := { s with pitchBuffer := pb }
    let blen : ℤ := (sonicPitchFrames s1 : ℤ) - (SincFilterPoints : ℤ)
    if blen < 1 then (s1, none)
    else
      match adjustRateOuter old newR blen.toNat 0 s1 with
      | (s2, some e) => (s2, some e)
      | (s2, none) =>
        match sampleDropSlice s2.numChannels s2.pitchBuffer blen with
        | (pb2, e) => ({ s2 with pitchBuffer := pb2 }, e)

/-! ## Stream orchestration -/

/-- `Sonic.processStreamInput`: derive the effective speed from
`inputPlaytime`, run the speed stage (or move input straight through), then
conditionally the rate stage on the newly produced tail, then conditionally
the volume stage on what of the tail remains. -/
def processStreamInput (s : Sonic) : Sonic × Option GoErr :=
  let InputLen := sonicInputFrames s
  if InputLen = 0 then (s, none)
  else
    let OutputLen := sonicOutputFrames s
    let speed : ℚ := (InputLen : ℚ) * s.samplePeriod / s.inputPlaytime
    let staged : Sonic × Option GoErr :=
      if speed > 1.00001 ∨ speed < 0.99999 then changeSpeed s speed
      else moveInputToOutput s
    match staged with
    | (s1, some e) => (s1, some e)
    | (s1, none) =>
      let rated : Sonic × Option GoErr :=
        if s1.erate ≠ 1 ∧ OutputLen < sonicOutputFrames s1 then
          match sampleReadSliceAt s1.numChannels s1.outputBuffer (OutputLen : ℤ) with
          | (out1, _, some e) => ({ s1 with outputBuffer := out1 }, some e)
          | (out1, slice, none) => adjustRate { s1 with outputBuffer := out1 } s1.erate slice
        else (s1, none)
      match rated with
      | (s2, some e) => (s2, some e)
      | (s2, none) =>
        if s2.volume ≠ 1 ∧ OutputLen < sonicOutputFrames s2 then
          let fixedPointVolume := goTrunc (s2.volume * 256)
          match sampleScale s2.numChannels s2.outputBuffer (OutputLen : ℤ) fixedPointVolume with
          | (out2, e) => ({ s2 with outputBuffer := out2 }, e)
        else (s2, none)

/-- `Sonic.AddEmptySamples(n)`: append `n` zero frames to the input buffer
(the argument is a frame count for `WriteEmpty`), then refresh
`inputPlaytime`. -/
def sonicAddEmptySamples (s : Sonic) (n : ℤ) : Sonic × Option GoErr :=
  match sampleWriteEmpty s.numChannels s.inputBuffer n with
  | (inp, _, some e) => ({ s with inputBuffer := inp }, some e)
  | (inp, _, none) => (updateInputPlaytime { s with inputBuffer := inp }, none)

/-- `Sonic.Flush`: capture the expected output bound from the pre-call
buffer lengths, pad the input with `2*maxRequired*numChannels` zero frames,
process, truncate any overshoot back to the bound, and reset
`inputPlaytime` and `timeError`. -/
def sonicFlush (s : Sonic) : Sonic × Option GoErr :=
  let maxReq := s.maxRequired
  let speed : ℚ := s.speed / s.pitch
  let expOutput : ℤ := (sonicOutputFrames s : ℤ) +
    goRound (((sonicInputFrames s : ℚ) / speed + (sonicPitchFrames s : ℚ)) / s.erate + 0.5)
  match sonicAddEmptySamples s ((2 * maxReq * s.numChannels : ℕ) : ℤ) with
  | (s1, some e) => (s1, some e)
  | (s1, none) =>
    match processStreamInput s1 with
    | (s2, some e) => (s2, some e)
    | (s2, none) =>
      let truncated : Sonic × Option GoErr :=
        if (sonicOutputFrames s2 : ℤ) > expOutput then
          match sampleTruncate s2.numChannels s2.outputBuffer expOutput with
          | (out1, e) => ({ s2 with outputBuffer := out1 }, e)
        else (s2, none)
      match truncated with
      | (s3, some e) => (s3, some e)
      | (s3, none) => ({ s3 with inputPlaytime := 0, timeError := 0 }, none)

/-- The pre-call expected output bound `E` of `Flush` (the claim's formula,
identical to the `expOutput` expression inside `sonicFlush`):
`Len(outputBuffer) + round((Len(inputBuffer)/(speed/pitch) +
Len(pitchBuffer))/erate + 0.5)`. -/
def flushExpected (s : Sonic) : ℤ :=
  (sonicOutputFrames s : ℤ) +
    goRound (((sonicInputFrames s : ℚ) / (s.speed / s.pitch) +
      (sonicPitchFrames s : ℚ)) / s.erate + 0.5)

/-! ## Copying stream facade (`Stream`) -/

/-- `NewSonicStream`: the copying facade wraps a fresh `Sonic`. -/
def newSonicStream (sampleRate numChannels : ℕ) : Sonic :=
  newSonic sampleRate numChannels

/-- `Stream.AddSamples`: append int16 samples, then set
`inputPlaytime = Len * samplePeriod / (speed / pitch)`. -/
def streamAddSamples (s : Sonic) (samples : List ℤ) : Sonic × Option GoErr :=
  match sampleAddSamples s.numChannels s.inputBuffer samples with
  | (inp, some e) => ({ s with inputBuffer := inp }, some e)
  | (inp, none) =>
    let s1 := { s with inputBuffer := inp }
    ({ s1 with inputPlaytime :=
        (sonicInputFrames s1 : ℚ) * s1.samplePeriod / (s1.speed / s1.pitch) }, none)

/-- `Stream.AddFloatSamples`. -/
def streamAddFloatSamples (s : Sonic) (samples : List ℚ) : Sonic × Option GoErr :=
  match sampleAddFloatSamples s.numChannels s.inputBuffer samples with
  | (inp, some e) => ({ s with inputBuffer := inp }, some e)
  | (inp, none) =>
    let s1 := { s with inputBuffer := inp }
    ({ s1 with inputPlaytime :=
        (sonicInputFrames s1 : ℚ) * s1.samplePeriod / (s1.speed / s1.pitch) }, none)

/-- `Stream.AddByteSamples` (inputs are `uint8` values `0..255`). -/
def streamAddByteSamples (s : Sonic) (samples : List ℤ) : Sonic × Option GoErr :=
  match sampleAddByteSamples s.numChannels s.inputBuffer samples with
  | (inp, some e) => ({ s with inputBuffer := inp }, some e)
  | (inp, none) =>
    let s1 := { s with inputBuffer := inp }
    ({ s1 with inputPlaytime :=
        (sonicInputFrames s1 : ℚ) * s1.samplePeriod / (s1.speed / s1.pitch) }, none)

/-- `Stream.Write`: add samples, then process. -/
def streamWrite (s : Sonic) (samples : List ℤ) : Sonic × Option GoErr :=
  match streamAddSamples s samples with
  | (s1, some e) => (s1, some e)
  | (s1, none) => processStreamInput s1

/-- `Stream.Read(n)`: read up to `n` frames from the output buffer. -/
def streamRead (s : Sonic) (n : ℤ) : Sonic × List ℤ × Option GoErr :=
  match sampleReadSlice s.numChannels s.outputBuffer n with
  | (out1, data, e) => ({ s with outputBuffer := out1 }, data, e)

/-- `Stream.ReadAll`: flush the whole output buffer. -/
def streamReadAll (s : Sonic) : Sonic × List ℤ × Option GoErr :=
  match sampleFlush s.outputBuffer with
  | (out1, data, e) => ({ s with outputBuffer := out1 }, data, e)

/-! ## Zero-copy stream facade (`zerocopy.go`) -/

/-- `ZeroCopyStream.returnRawSlice`: commit `len(slice)/numChannels` frames
of the borrowed tail region (whose contents are exactly what the caller
wrote into the borrowed slice), then refresh `inputPlaytime`. -/
def returnRawSlice (s : Sonic) (slice : List ℤ) : Sonic × Option GoErr :=
  let samples := slice.length / s.numChannels
  let s1 := { s with inputBuffer := s.inputBuffer ++ slice.take (samples * s.numChannels) }
  (updateInputPlaytime s1, none)

/-- `ZeroCopyStream.processAndRead(samples)`: the fast path for
`speed == erate == volume == 1` serves frames from the buffers directly
(idle when they jointly hold fewer than `samples` frames); the slow path
processes and reads from the output buffer, returning an empty slice when it
holds fewer than `samples` frames. -/
def processAndRead (s : Sonic) (samples : ℤ) : Sonic × List ℤ × Option GoErr :=
  if samples = 0 then (s, [], none)
  else if s.speed = 1 ∧ s.erate = 1 ∧ s.volume = 1 then
    let iLen := sonicInputFrames s
    let oLen := sonicOutputFrames s
    if (iLen : ℤ) + (oLen : ℤ) < samples then (s, [], none)
    else if oLen = 0 then
      match sampleReadSlice s.numChannels s.inputBuffer samples with
      | (inp, data, e) => (updateInputPlaytime { s with inputBuffer := inp }, data, e)
    else if (oLen : ℤ) ≥ samples then
      match sampleReadSlice s.numChannels s.outputBuffer samples with
      | (out1, data, e) => ({ s with outputBuffer := out1 }, data, e)
    else
      match sampleMoveTo s.numChannels s.numChannels s.inputBuffer s.outputBuffer
          (samples - (oLen : ℤ)) with
      | (inp, out1, _) =>
        match sampleReadSlice s.numChannels out1 samples with
        | (out2, data, _) =>
          (updateInputPlaytime { s with inputBuffer := inp, outputBuffer := out2 }, data, none)
  else
    match processStreamInput s with
    | (s1, some e) => (s1, [], some e)
    | (s1, none) =>
      if (sonicOutputFrames s1 : ℤ) ≥ samples then
        match sampleReadSlice s1.numChannels s1.outputBuffer samples with
        | (out1, data, e) => ({ s1 with outputBuffer := out1 }, data, e)
      else (s1, [], none)

/-- `ZeroCopyStream.Process(samples, f)`: borrow a tail region of
`samples * numChannels` elements, let the (successful) callback fill it with
`fill`, commit it with `returnRawSlice`, then serve frames through
`processAndRead`. -/
def zcProcess (s : Sonic) (samples : ℤ) (fill : List ℤ) : Sonic × List ℤ × Option GoErr :=
  match returnRawSlice s fill with
  | (s1, some e) => (s1, [], some e)
  | (s1, none) => processAndRead s1 samples

/-! ## Batch convenience API (`api.go`) -/

/-- The `ChangeSpeed` pipeline up to and including `ReadAll`: build a stream,
apply the four setters, add the samples, `Flush`, and read everything back.
Returns the `out` slice (or the first error). -/
def changeSpeedPipeline (sampleRate numChannels : ℕ) (speed pitch rate volume : ℚ)
    (samples : List ℤ) : Sonic × List ℤ × Option GoErr :=
  let s0 := setVolume (setRate (setPitch (setSpeed
    (newSonicStream sampleRate numChannels) speed) pitch) rate) volume
  match streamAddSamples s0 samples with
  | (s1, some e) => (s1, [], some e)
  | (s1, none) =>
    match sonicFlush s1 with
    | (s2, some e) => (s2, [], some e)
    | (s2, none) => streamReadAll s2

/-- `ChangeSpeed`: run the pipeline, then repack `out` into the caller's
slice.  `capSamples` is `cap(samples)`.  When `cap(samples) < len(out)` a
fresh slice of length `len(out)` is allocated and `copy` returns
`n = len(out)`; otherwise the caller's slice is resliced to `len(out)-1` and
`copy` returns `n = len(out)-1`.  Either way the function returns
`samples[:n-1]`, which panics when `n = 0`. -/
def ChangeSpeedGo (sampleRate numChannels : ℕ) (speed pitch rate volume : ℚ)
    (samples : List ℤ) (capSamples : ℕ) : List ℤ × Option GoErr :=
  match changeSpeedPipeline sampleRate numChannels speed pitch rate volume samples with
  | (_, _, some e) => (samples, some e)
  | (_, out, none) =>
    if capSamples < out.length then
      let n := out.length
      if n = 0 then (samples, some .fault)
      else (out.take (n - 1), none)
    else
      let k := out.length - 1
      let n := min k out.length
      if n = 0 then (samples, some .fault)
      else ((out.take k).take (n - 1), none)

/-! ## Drivers used by the claims -/

/-- One interaction with the copying stream facade: `Stream.Write` or
`Stream.Read`. -/
inductive StreamOp where
  | write (xs : List ℤ)
  | read (n : ℕ)
deriving DecidableEq, Repr

/-- Run a sequence of `Stream.Write` / `Stream.Read` calls, collecting every
slice a `Read` returns (a failed `Read` returns no frames, exactly as in
Go). -/
def runStreamOps : Sonic → List StreamOp → Sonic × List (List ℤ)
  | s, [] => (s, [])
  | s, .write xs :: rest =>
    let r := streamWrite s xs
    runStreamOps r.1 rest
  | s, .read n :: rest =>
    let r := streamRead s (n : ℤ)
    let rec' := runStreamOps r.1 rest
    (rec'.1, r.2.1 :: rec'.2)

/-- The concatenation of all samples passed to the `write` operations of a
sequence. -/
def writtenOf (ops : List StreamOp) : List ℤ :=
  (ops.map (fun op => match op with | .write xs => xs | .read _ => [])).flatten

/-- Every `write` in the sequence is frame-aligned for `ch` channels. -/
def alignedOps (ch : ℕ) (ops : List StreamOp) : Prop :=
  ∀ xs, StreamOp.write xs ∈ ops → xs.length % ch = 0

/-- One parameter-setter call on the `Sonic` engine. -/
inductive SetterOp where
  | speedS (v : ℚ)
  | pitchS (v : ℚ)
  | rateS (v : ℚ)
  | volumeS (v : ℚ)
  | qualityS (b : Bool)
  | sinOverlapS (b : Bool)
deriving DecidableEq, Repr

/-- Apply one setter. -/
def applySetter (s : Sonic) : SetterOp → Sonic
  | .speedS v => setSpeed s v
  | .pitchS v => setPitch s v
  | .rateS v => setRate s v
  | .volumeS v => setVolume s v
  | .qualityS b => setQuality s b
  | .sinOverlapS b => setUseSinOverlap s b

/-- Apply a sequence of setters left to right. -/
def applySetters (s : Sonic) (ops : List SetterOp) : Sonic :=
  ops.foldl applySetter s

/-! ## Helper lemmas -/

/-- `wrap16` is the identity on values already in the `int16` range. -/
theorem wrap16_eq_self {x : ℤ} (h1 : -32768 ≤ x) (h2 : x ≤ 32767) : wrap16 x = x := by
  unfold wrap16
  have : (x + 32768) % 65536 = x + 32768 := Int.emod_eq_of_lt (by omega) (by omega)
  omega

/-- `scaleInt16` computes exactly the clamped arithmetic-shift formula
`clamp((v256 * s) >> 8, -32768, 32767)`. -/
theorem scaleInt16_eq_clamp (v256 x : ℤ) :
    scaleInt16 v256 x = max (-32768) (min 32767 (Int.fdiv (v256 * x) 256)) := by
  unfold scaleInt16
  by_cases h1 : Int.fdiv (v256 * x) 256 > 32767
  · simp only [h1, if_true]
    rw [wrap16_eq_self (by omega) (by omega)]
    omega
  · simp only [h1, if_false]
    by_cases h2 : Int.fdiv (v256 * x) 256 < -32768
    · simp only [h2, if_true]
      rw [wrap16_eq_self (by omega) (by omega)]
      omega
    · simp only [h2, if_false]
      rw [wrap16_eq_self (by omega) (by omega)]
      omega

/-- `Buffer.ReadSlice` with a request no larger than a non-empty buffer's
unread length consumes exactly `k` elements. -/
theorem bufferReadSlice_of_le (buf : List ℤ) (k : ℕ) (hne : buf ≠ [])
    (hk : k ≤ buf.length) :
    bufferReadSlice buf (k : ℤ) = (buf.drop k, buf.take k, none) := by
  unfold bufferReadSlice
  rw [if_neg (by simpa [List.isEmpty_iff] using hne), if_neg (by omega)]
  simp [Int.toNat_natCast, min_eq_left hk]

/-! ### Channel-count preservation

No operation of the engine ever writes the `numChannels` field; these lemmas
record that fact function by function. -/

/-- `overlapAdd` preserves `numChannels`. -/
theorem overlapAdd_numChannels (s : Sonic) (numSamples period : ℤ) :
    (overlapAdd s numSamples period).1.numChannels = s.numChannels := by
  unfold overlapAdd
  rcases sampleWriteEmpty s.numChannels s.outputBuffer numSamples with ⟨out1, cur, e⟩
  cases e <;> simp <;> split_ifs <;> rfl

/-- `skipPitchPeriod` preserves `numChannels`. -/
theorem skipPitchPeriod_numChannels (s : Sonic) (speed : ℚ) (period : ℤ) :
    (skipPitchPeriod s speed period).1.numChannels = s.numChannels := by
  unfold skipPitchPeriod
  rcases ho : overlapAdd s
      (if speed ≥ 2 then goRound ((period : ℚ) / (speed - 1)) else period) period
    with ⟨s1, e1⟩
  have h1 := overlapAdd_numChannels s
    (if speed ≥ 2 then goRound ((period : ℚ) / (speed - 1)) else period) period
  rw [ho] at h1
  cases e1 with
  | some e => simpa [ho] using h1
  | none =>
    simp only [ho]
    rcases sampleDropSlice s1.numChannels s1.inputBuffer _ with ⟨inp, e2⟩
    cases e2 <;> simpa using h1

/-- `insertPitchPeriod` preserves `numChannels`. -/
theorem insertPitchPeriod_numChannels (s : Sonic) (speed : ℚ) (period : ℤ) :
    (insertPitchPeriod s speed period).1.numChannels = s.numChannels := by
  unfold insertPitchPeriod
  rcases sampleCopyTo s.numChannels s.numChannels s.inputBuffer s.outputBuffer period
    with ⟨out1, e0⟩
  cases e0 with
  | some e => rfl
  | none =>
    simp only []
    rcases ho : overlapAdd { s with outputBuffer := out1 }
        (if speed ≤ 1 / 2 then goTrunc ((period : ℚ) * speed / (1 - speed)) else period) period
      with ⟨s1, e1⟩
    have h1 := overlapAdd_numChannels { s with outputBuffer := out1 }
      (if speed ≤ 1 / 2 then goTrunc ((period : ℚ) * speed / (1 - speed)) else period) period
    rw [ho] at h1
    cases e1 with
    | some e => simpa using h1
    | none =>
      rcases hdrop : sampleDropSlice s1.numChannels s1.inputBuffer
          (if speed ≤ 1 / 2 then goTrunc ((period : ℚ) * speed / (1 - speed)) else period)
        with ⟨inp, e2⟩
      simp only [hdrop]
      cases e2 <;> simpa using h1

/-- `moveUnmodifiedSamples` preserves `numChannels`. -/
theorem moveUnmodifiedSamples_numChannels (s : Sonic) (speed : ℚ) :
    (moveUnmodifiedSamples s speed).1.numChannels = s.numChannels := by
  unfold moveUnmodifiedSamples
  simp only []
  split_ifs <;> rfl

/-- `downSampleInput` preserves `numChannels`. -/
theorem downSampleInput_numChannels (s : Sonic) (skip : ℕ) :
    (downSampleInput s skip).1.numChannels = s.numChannels := by
  unfold downSampleInput
  simp only []
  split <;> rfl

/-- The search phase of `findPitchPeriod` preserves `numChannels`. -/
theorem findPitchPeriodSearch_numChannels (s : Sonic) :
    (findPitchPeriodSearch s).1.numChannels = s.numChannels := by
  unfold findPitchPeriodSearch
  simp only []
  by_cases h1 : s.numChannels = 1 ∧ computeSkip s = 1
  · rw [if_pos h1]
  · rw [if_neg h1]
    split
    next s1 e heq =>
      have hd1' := downSampleInput_numChannels s (computeSkip s)
      rw [heq] at hd1'
      exact hd1'
    next s1 heq =>
      have hd1' := downSampleInput_numChannels s (computeSkip s)
      rw [heq] at hd1'
      have hd1 : s1.numChannels = s.numChannels := hd1'
      split
      · split
        · exact hd1
        · rcases hd2 : downSampleInput s1 1 with ⟨s2, e2⟩
          have hd3' := downSampleInput_numChannels s1 1
          rw [hd2] at hd3'
          have hd3 : s2.numChannels = s1.numChannels := hd3'
          cases e2 <;> exact hd3.trans hd1
      · exact hd1

/-- `findPitchPeriod` preserves `numChannels`. -/
theorem findPitchPeriod_numChannels (s : Sonic) (preferNewPeriod : Bool) :
    (findPitchPeriod s preferNewPeriod).1.numChannels = s.numChannels := by
  unfold findPitchPeriod
  have hs := findPitchPeriodSearch_numChannels s
  rcases hsr : findPitchPeriodSearch s with ⟨s1, p, mn, mx, e⟩
  rw [hsr] at hs
  simp only [hsr]
  cases e <;> simpa using hs

/-- `changeSpeedStep` preserves `numChannels`. -/
theorem changeSpeedStep_numChannels (speed playtime : ℚ) (samplesNum : ℕ)
    (s1 : Sonic) (period : ℤ) :
    (changeSpeedStep speed playtime samplesNum s1 period).1.numChannels =
      s1.numChannels := by
  unfold changeSpeedStep
  split_ifs with h1 h2 h3
  · obtain ⟨⟨s2, ns2, e2⟩, hsk⟩ : ∃ r, skipPitchPeriod s1 speed period = r := ⟨_, rfl⟩
    have h := skipPitchPeriod_numChannels s1 speed period
    rw [hsk] at h
    cases e2 <;> simp only [hsk] <;> exact h
  · obtain ⟨⟨s2, ns2, e2⟩, hsk⟩ : ∃ r, skipPitchPeriod s1 speed period = r := ⟨_, rfl⟩
    have h := skipPitchPeriod_numChannels s1 speed period
    rw [hsk] at h
    cases e2 <;> simp only [hsk] <;> exact h
  · obtain ⟨⟨s2, ns2, e2⟩, hin⟩ : ∃ r, insertPitchPeriod s1 speed period = r := ⟨_, rfl⟩
    have h := insertPitchPeriod_numChannels s1 speed period
    rw [hin] at h
    cases e2 <;> simp only [hin] <;> exact h
  · obtain ⟨⟨s2, ns2, e2⟩, hin⟩ : ∃ r, insertPitchPeriod s1 speed period = r := ⟨_, rfl⟩
    have h := insertPitchPeriod_numChannels s1 speed period
    rw [hin] at h
    cases e2 <;> simp only [hin] <;> exact h

/-- `changeSpeedLoop` preserves `numChannels`. -/
theorem changeSpeedLoop_numChannels (speed playtime : ℚ) (samplesNum : ℕ) :
    ∀ (fuel : ℕ) (ns : ℤ) (s : Sonic),
      (changeSpeedLoop speed playtime samplesNum fuel ns s).1.numChannels =
        s.numChannels := by
  intro fuel
  induction fuel with
  | zero => intro ns s; rfl
  | succ fuel ih =>
    intro ns s
    unfold changeSpeedLoop
    by_cases h1 : (speed > 1 ∧ speed < 2 ∧ s.timeError < 0) ∨
        (speed < 1 ∧ speed > 1 / 2 ∧ s.timeError > 0)
    · rw [if_pos h1]
      obtain ⟨⟨s1, e1⟩, hm⟩ : ∃ r, moveUnmodifiedSamples s speed = r := ⟨_, rfl⟩
      have hms : s1.numChannels = s.numChannels := by
        have h := moveUnmodifiedSamples_numChannels s speed
        rw [hm] at h
        exact h
      cases e1 with
      | some e => simp only [hm]; exact hms
      | none =>
        simp only [hm]
        split_ifs with h2 h3
        · exact hms
        · exact hms
        · exact (ih ns s1).trans hms
    · rw [if_neg h1]
      obtain ⟨⟨s1, period, e1⟩, hf⟩ : ∃ r, findPitchPeriod s true = r := ⟨_, rfl⟩
      have hfs : s1.numChannels = s.numChannels := by
        have h := findPitchPeriod_numChannels s true
        rw [hf] at h
        exact h
      cases e1 with
      | some e => simp only [hf]; exact hfs
      | none =>
        simp only [hf]
        obtain ⟨⟨s2, ns2, e2⟩, hst⟩ : ∃ r, changeSpeedStep speed playtime samplesNum s1 period = r :=
          ⟨_, rfl⟩
        have hss : s2.numChannels = s.numChannels := by
          have h := changeSpeedStep_numChannels speed playtime samplesNum s1 period
          rw [hst] at h
          exact h.trans hfs
        cases e2 with
        | some e => simp only [hst]; exact hss
        | none =>
          simp only [hst]
          split_ifs with h2 h3
          · exact hss
          · exact hss
          · exact (ih ns2 s2).trans hss

/-- `changeSpeed` preserves `numChannels`. -/
theorem changeSpeed_numChannels (s : Sonic) (speed : ℚ) :
    (changeSpeed s speed).1.numChannels = s.numChannels := by
  unfold changeSpeed
  split_ifs with h1
  · rfl
  · exact changeSpeedLoop_numChannels speed s.inputPlaytime (sonicInputFrames s)
      (s.inputBuffer.length + 1) 0 s

/-- `moveInputToOutput` preserves `numChannels`. -/
theorem moveInputToOutput_numChannels (s : Sonic) :
    (moveInputToOutput s).1.numChannels = s.numChannels := by
  unfold moveInputToOutput
  rcases sampleMoveAllTo s.numChannels s.numChannels s.inputBuffer s.outputBuffer
    with ⟨inp, out, e⟩
  rfl

/-- `interpolatePitch` preserves `numChannels`. -/
theorem interpolatePitch_numChannels (s : Sonic) (i old new : ℤ) :
    (interpolatePitch s i old new).1.numChannels = s.numChannels := by
  unfold interpolatePitch
  rcases sampleWriteEmpty s.numChannels s.outputBuffer 1 with ⟨out1, cur, e⟩
  rfl

/-- `adjustRateInner` preserves `numChannels`. -/
theorem adjustRateInner_numChannels (old new i : ℤ) :
    ∀ (fuel : ℕ) (s : Sonic),
      (adjustRateInner old new i fuel s).1.numChannels = s.numChannels := by
  intro fuel
  induction fuel with
  | zero => intro s; rfl
  | succ fuel ih =>
    intro s
    unfold adjustRateInner
    split_ifs with h1
    · rcases hp : interpolatePitch s i old new with ⟨s1, e1⟩
      have hps := interpolatePitch_numChannels s i old new
      rw [hp] at hps
      cases e1 with
      | some e => simpa using hps
      | none => simp only []; rw [ih s1]; exact hps
    · rfl

/-- `adjustRateOuter` preserves `numChannels`. -/
theorem adjustRateOuter_numChannels (old new : ℤ) :
    ∀ (rem : ℕ) (i : ℤ) (s : Sonic),
      (adjustRateOuter old new rem i s).1.numChannels = s.numChannels := by
  intro rem
  induction rem with
  | zero => intro i s; rfl
  | succ rem ih =>
    intro i s
    unfold adjustRateOuter
    simp only []
    obtain ⟨⟨s1, e1⟩, hin⟩ : ∃ r, adjustRateInner old new i
        (((s.oldRatePosition + 1) * new - s.newRatePosition * old).toNat + 1) s = r :=
      ⟨_, rfl⟩
    have hins : s1.numChannels = s.numChannels := by
      have h := adjustRateInner_numChannels old new i
        (((s.oldRatePosition + 1) * new - s.newRatePosition * old).toNat + 1) s
      rw [hin] at h
      exact h
    cases e1 with
    | some e => simp only [hin]; exact hins
    | none =>
      simp only [hin]
      exact (ih (i + 1) { s1 with oldRatePosition := s1.oldRatePosition + 1 }).trans hins

/-- `adjustRate` preserves `numChannels`. -/
theorem adjustRate_numChannels (s : Sonic) (rate : ℚ) (slice : List ℤ) :
    (adjustRate s rate slice).1.numChannels = s.numChannels := by
  unfold adjustRate
  simp only []
  obtain ⟨⟨pb, e0⟩, hw⟩ : ∃ r, sampleWriteSlice s.numChannels s.pitchBuffer slice = r :=
    ⟨_, rfl⟩
  cases e0 with
  | some e => simp only [hw]
  | none =>
    simp only [hw]
    split_ifs with h1
    · rfl
    · obtain ⟨⟨s2, e2⟩, ho⟩ : ∃ r, adjustRateOuter
          (halveRates 64 ((s.sampleRate : ℤ), goTrunc ((s.sampleRate : ℚ) / rate))).1
          (halveRates 64 ((s.sampleRate : ℤ), goTrunc ((s.sampleRate : ℚ) / rate))).2
          ((sonicPitchFrames { s with pitchBuffer := pb } : ℤ) - (SincFilterPoints : ℤ)).toNat
          0 { s with pitchBuffer := pb } = r := ⟨_, rfl⟩
      have hos : s2.numChannels = s.numChannels := by
        have h := adjustRateOuter_numChannels
          (halveRates 64 ((s.sampleRate : ℤ), goTrunc ((s.sampleRate : ℚ) / rate))).1
          (halveRates 64 ((s.sampleRate : ℤ), goTrunc ((s.sampleRate : ℚ) / rate))).2
          ((sonicPitchFrames { s with pitchBuffer := pb } : ℤ) - (SincFilterPoints : ℤ)).toNat
          0 { s with pitchBuffer := pb }
        rw [ho] at h
        exact h
      cases e2 with
      | some e => simp only [ho]; exact hos
      | none =>
        simp only [ho]
        exact hos

/-- `processStreamInput` preserves `numChannels`. -/
theorem processStreamInput_numChannels (s : Sonic) :
    (processStreamInput s).1.numChannels = s.numChannels := by
  unfold processStreamInput
  simp only []
  split_ifs with h1 h2
  · rfl
  · obtain ⟨⟨s1, e1⟩, hcs⟩ : ∃ r,
        changeSpeed s ((sonicInputFrames s : ℚ) * s.samplePeriod / s.inputPlaytime) = r :=
      ⟨_, rfl⟩
    have hs1 : s1.numChannels = s.numChannels := by
      have h := changeSpeed_numChannels s
        ((sonicInputFrames s : ℚ) * s.samplePeriod / s.inputPlaytime)
      rw [hcs] at h
      exact h
    cases e1 with
    | some e => simp only [hcs]; exact hs1
    | none =>
      simp only [hcs]
      split_ifs with h3
      · obtain ⟨⟨out1, slice, er⟩, hr⟩ : ∃ r, sampleReadSliceAt s1.numChannels
            s1.outputBuffer (sonicOutputFrames s : ℤ) = r := ⟨_, rfl⟩
        cases er with
        | some e => simp only [hr]; exact hs1
        | none =>
          simp only [hr]
          obtain ⟨⟨s2, e2⟩, ha⟩ : ∃ r,
              adjustRate { s1 with outputBuffer := out1 } s1.erate slice = r := ⟨_, rfl⟩
          have hs2 : s2.numChannels = s.numChannels := by
            have h := adjustRate_numChannels { s1 with outputBuffer := out1 } s1.erate slice
            rw [ha] at h
            exact h.trans hs1
          cases e2 with
          | some e => simp only [ha]; exact hs2
          | none =>
            simp only [ha]
            split_ifs with h4
            · obtain ⟨⟨out2, e3⟩, hsc⟩ : ∃ r, sampleScale s2.numChannels s2.outputBuffer
                  (sonicOutputFrames s : ℤ) (goTrunc (s2.volume * 256)) = r := ⟨_, rfl⟩
              simp only [hsc]
              exact hs2
            · exact hs2
      · show (if s1.volume ≠ 1 ∧ sonicOutputFrames s < sonicOutputFrames s1 then
            ({ s1 with outputBuffer := (sampleScale s1.numChannels s1.outputBuffer
                (sonicOutputFrames s : ℤ) (goTrunc (s1.volume * 256))).1 },
              (sampleScale s1.numChannels s1.outputBuffer
                (sonicOutputFrames s : ℤ) (goTrunc (s1.volume * 256))).2)
          else (s1, none)).1.numChannels = s.numChannels
        split_ifs with h4
        · exact hs1
        · exact hs1
  · obtain ⟨⟨s1, e1⟩, hmv⟩ : ∃ r, moveInputToOutput s = r := ⟨_, rfl⟩
    have hs1 : s1.numChannels = s.numChannels := by
      have h := moveInputToOutput_numChannels s
      rw [hmv] at h
      exact h
    cases e1 with
    | some e => simp only [hmv]; exact hs1
    | none =>
      simp only [hmv]
      split_ifs with h3
      · obtain ⟨⟨out1, slice, er⟩, hr⟩ : ∃ r, sampleReadSliceAt s1.numChannels
            s1.outputBuffer (sonicOutputFrames s : ℤ) = r := ⟨_, rfl⟩
        cases er with
        | some e => simp only [hr]; exact hs1
        | none =>
          simp only [hr]
          obtain ⟨⟨s2, e2⟩, ha⟩ : ∃ r,
              adjustRate { s1 with outputBuffer := out1 } s1.erate slice = r := ⟨_, rfl⟩
          have hs2 : s2.numChannels = s.numChannels := by
            have h := adjustRate_numChannels { s1 with outputBuffer := out1 } s1.erate slice
            rw [ha] at h
            exact h.trans hs1
          cases e2 with
          | some e => simp only [ha]; exact hs2
          | none =>
            simp only [ha]
            split_ifs with h4
            · obtain ⟨⟨out2, e3⟩, hsc⟩ : ∃ r, sampleScale s2.numChannels s2.outputBuffer
                  (sonicOutputFrames s : ℤ) (goTrunc (s2.volume * 256)) = r := ⟨_, rfl⟩
              simp only [hsc]
              exact hs2
            · exact hs2
      · show (if s1.volume ≠ 1 ∧ sonicOutputFrames s < sonicOutputFrames s1 then
            ({ s1 with outputBuffer := (sampleScale s1.numChannels s1.outputBuffer
                (sonicOutputFrames s : ℤ) (goTrunc (s1.volume * 256))).1 },
              (sampleScale s1.numChannels s1.outputBuffer
                (sonicOutputFrames s : ℤ) (goTrunc (s1.volume * 256))).2)
          else (s1, none)).1.numChannels = s.numChannels
        split_ifs with h4
        · exact hs1
        · exact hs1

/-- `sonicAddEmptySamples` preserves `numChannels`. -/
theorem sonicAddEmptySamples_numChannels (s : Sonic) (n : ℤ) :
    (sonicAddEmptySamples s n).1.numChannels = s.numChannels := by
  unfold sonicAddEmptySamples
  rcases sampleWriteEmpty s.numChannels s.inputBuffer n with ⟨inp, cur, e⟩
  cases e <;> rfl

/-- Helper for C4: a successful `sampleTruncate` to `n` frames leaves at
most `n` frames in the buffer. -/
theorem sampleTruncate_frames_le (ch : ℕ) (hch : 1 ≤ ch) (buf : List ℤ) (n : ℤ)
    (out : List ℤ) (h : sampleTruncate ch buf n = (out, none)) :
    ((sampleLen ch out : ℕ) : ℤ) ≤ n := by
  unfold sampleTruncate bufferTruncate at h
  split_ifs at h with h1 h2
  · have hout : out = [] := (congrArg Prod.fst h).symm
    have hn : n = 0 := by
      rcases mul_eq_zero.mp h1 with h' | h'
      · exact h'
      · exfalso
        have : (0:ℤ) < (ch:ℤ) := by exact_mod_cast hch
        omega
    subst hout
    rw [hn]
    simp [sampleLen]
  · exact Option.noConfusion (congrArg Prod.snd h)
  · have hout : out = buf.take (n * (ch:ℤ)).toNat := (congrArg Prod.fst h).symm
    push_neg at h2
    obtain ⟨h2a, h2b⟩ := h2
    have hchZ : (0:ℤ) < (ch:ℤ) := by exact_mod_cast hch
    have hn : 0 ≤ n := by
      by_contra hneg
      push_neg at hneg
      have := mul_neg_of_neg_of_pos hneg hchZ
      omega
    have hlen : (buf.take (n * (ch:ℤ)).toNat).length = (n * (ch:ℤ)).toNat := by
      rw [List.length_take]
      omega
    have hmul : (n * (ch:ℤ)).toNat = n.toNat * ch := by
      have h' : n = (n.toNat : ℤ) := (Int.toNat_of_nonneg hn).symm
      calc (n * (ch:ℤ)).toNat = (((n.toNat : ℤ)) * (ch:ℤ)).toNat := by rw [← h']
        _ = (((n.toNat * ch : ℕ) : ℤ)).toNat := by rw [Int.natCast_mul]
        _ = n.toNat * ch := Int.toNat_natCast _
    subst hout
    unfold sampleLen
    rw [hlen, hmul, Nat.mul_div_cancel _ (by omega : 0 < ch)]
    omega

/-! ## Claim C4 -/

/-- The state used to refute C4's lower bound: sample rate 400, one channel,
speed set to `1/200`, ten zero samples added. -/
def c4state : Sonic :=
  (streamAddSamples (setSpeed (newSonic 400 1) (1 / 200)) (List.replicate 10 0)).1

/-- C4 (counterexample to the lower bound): on `c4state`, `Flush` succeeds
and leaves 1 output frame, while `E = 2001` and `C = 1`, so the claimed
lower bound `E - C = 2000` fails by a wide margin. -/
theorem c4_flush_counterexample :
    (sonicFlush c4state).2 = none ∧
      ((sonicOutputFrames (sonicFlush c4state).1 : ℤ) <
        flushExpected c4state - (c4state.numChannels : ℤ)) := by
  with_unfolding_all decide

/-- C4 (amended): whenever `Flush` returns without error (on a state with at
least one channel), the frames left in the output buffer are at most the
pre-call bound `E = Len(outputBuffer) + round((Len(inputBuffer)/(speed/pitch)
+ Len(pitchBuffer))/erate + 0.5)`, and `inputPlaytime` and `timeError` are
reset to 0; the claimed lower bound `E - C` does not hold. -/
theorem c4_flush_upper_bound_and_reset (s : Sonic) (hch : 1 ≤ s.numChannels)
    (res : Sonic) (hres : sonicFlush s = (res, none)) :
    (sonicOutputFrames res : ℤ) ≤ flushExpected s ∧
      res.inputPlaytime = 0 ∧ res.timeError = 0 := by
  unfold sonicFlush at hres
  simp only [] at hres
  obtain ⟨⟨s1, e1⟩, hadd⟩ : ∃ r,
      sonicAddEmptySamples s ((2 * s.maxRequired * s.numChannels : ℕ) : ℤ) = r := ⟨_, rfl⟩
  cases e1 with
  | some e =>
    simp only [hadd] at hres
    exact Option.noConfusion (congrArg Prod.snd hres)
  | none =>
    simp only [hadd] at hres
    obtain ⟨⟨s2, e2⟩, hproc⟩ : ∃ r, processStreamInput s1 = r := ⟨_, rfl⟩
    have hch2 : 1 ≤ s2.numChannels := by
      have hp := processStreamInput_numChannels s1
      rw [hproc] at hp
      have ha := sonicAddEmptySamples_numChannels s ((2 * s.maxRequired * s.numChannels : ℕ) : ℤ)
      rw [hadd] at ha
      have hp' : s2.numChannels = s1.numChannels := hp
      have ha' : s1.numChannels = s.numChannels := ha
      omega
    cases e2 with
    | some e =>
      simp only [hproc] at hres
      exact Option.noConfusion (congrArg Prod.snd hres)
    | none =>
      simp only [hproc] at hres
      rw [show (sonicOutputFrames s : ℤ) +
          goRound (((sonicInputFrames s : ℚ) / (s.speed / s.pitch) +
            (sonicPitchFrames s : ℚ)) / s.erate + 0.5) = flushExpected s from rfl] at hres
      by_cases ht : (sonicOutputFrames s2 : ℤ) > flushExpected s
      · rw [if_pos ht] at hres
        obtain ⟨⟨out1, et⟩, htr⟩ : ∃ r,
            sampleTruncate s2.numChannels s2.outputBuffer (flushExpected s) = r := ⟨_, rfl⟩
        cases et with
        | some e =>
          simp only [htr] at hres
          exact Option.noConfusion (congrArg Prod.snd hres)
        | none =>
          simp only [htr] at hres
          have hr : res = { s2 with outputBuffer := out1, inputPlaytime := 0, timeError := 0 } := by
            have h2 : ({ s2 with outputBuffer := out1, inputPlaytime := 0, timeError := 0 },
                (none : Option GoErr)) = (res, none) := hres
            exact (congrArg Prod.fst h2).symm
          subst hr
          refine ⟨?_, rfl, rfl⟩
          exact sampleTruncate_frames_le s2.numChannels hch2 s2.outputBuffer
            (flushExpected s) out1 htr
      · rw [if_neg ht] at hres
        have hr : res = { s2 with inputPlaytime := 0, timeError := 0 } := by
          have h2 : ({ s2 with inputPlaytime := 0, timeError := 0 },
              (none : Option GoErr)) = (res, none) := hres
          exact (congrArg Prod.fst h2).symm
        subst hr
        refine ⟨?_, rfl, rfl⟩
        exact le_of_not_lt ht

/-- Witness for the amended C4 theorem: two samples on a fresh mono stream at
sample rate 400; `Flush` succeeds, leaves 3 frames with `E = 3`, and resets
both accumulators. -/
theorem c4_flush_upper_bound_and_reset_witness :
    1 ≤ (streamAddSamples (newSonic 400 1) [5, 6]).1.numChannels ∧
    ((sonicOutputFrames (sonicFlush (streamAddSamples (newSonic 400 1) [5, 6]).1).1 : ℤ) ≤
        flushExpected (streamAddSamples (newSonic 400 1) [5, 6]).1 ∧
      (sonicFlush (streamAddSamples (newSonic 400 1) [5, 6]).1).1.inputPlaytime = 0 ∧
      (sonicFlush (streamAddSamples (newSonic 400 1) [5, 6]).1).1.timeError = 0) :=
  ⟨by with_unfolding_all decide,
    c4_flush_upper_bound_and_reset _ (by with_unfolding_all decide) _
      (by with_unfolding_all decide)⟩

/-! ## Claim C5 -/

/-- The state used to refute C5 for the speed-changer: sample rate 400, one
channel, speed 10, twelve zero samples, then one `processStreamInput`. -/
def c5state : Sonic :=
  (processStreamInput
    (streamAddSamples (setSpeed (newSonic 400 1) 10) (List.replicate 12 0)).1).1

/-- C5 (counterexample for the speed-changer): after `processStreamInput`
consumes input through `changeSpeed`, the state holds
`inputPlaytime = 3/1000` while the claimed invariant demands
`11 * samplePeriod * pitch / speed = 11/4000`: the `newSamples == 0` early
return of the PICOLA loop skips the proportional rescale, and even the
rescale path only approximates the invariant. -/
theorem c5_invariant_counterexample :
    (processStreamInput
        (streamAddSamples (setSpeed (newSonic 400 1) 10) (List.replicate 12 0)).1).2 = none ∧
      c5state.inputPlaytime ≠
        (sonicInputFrames c5state : ℚ) * c5state.samplePeriod * c5state.pitch / c5state.speed := by
  with_unfolding_all decide

/-- C5 (amended): the invariant
`inputPlaytime = frames(inputBuffer) * samplePeriod * pitch / speed` is
established by every successful buffer-filling mutation — `AddSamples`,
`AddFloatSamples`, `AddByteSamples`, `AddEmptySamples` and the zero-copy
commit `returnRawSlice` — but not by the speed-changer's consumption of
input inside `processStreamInput`. -/
theorem c5_input_playtime_after_mutators (s s' : Sonic)
    (h : (∃ samples, streamAddSamples s samples = (s', none)) ∨
      (∃ fsamples, streamAddFloatSamples s fsamples = (s', none)) ∨
      (∃ bsamples, streamAddByteSamples s bsamples = (s', none)) ∨
      (∃ n, sonicAddEmptySamples s n = (s', none)) ∨
      (∃ slice, returnRawSlice s slice = (s', none))) :
    s'.inputPlaytime =
      (sonicInputFrames s' : ℚ) * s'.samplePeriod * s'.pitch / s'.speed := by
  rcases h with ⟨samples, hs⟩ | ⟨fsamples, hs⟩ | ⟨bsamples, hs⟩ | ⟨n, hs⟩ | ⟨slice, hs⟩
  · unfold streamAddSamples at hs
    obtain ⟨⟨inp, e0⟩, hadd⟩ : ∃ r, sampleAddSamples s.numChannels s.inputBuffer samples = r :=
      ⟨_, rfl⟩
    cases e0 with
    | some e =>
      simp only [hadd] at hs
      exact Option.noConfusion (congrArg Prod.snd hs)
    | none =>
      simp only [hadd] at hs
      have h1 : ({ s with
          inputBuffer := inp
          inputPlaytime := (sonicInputFrames { s with inputBuffer := inp } : ℚ) *
            s.samplePeriod / (s.speed / s.pitch) }, (none : Option GoErr)) = (s', none) := hs
      have h2 : s' = { s with
          inputBuffer := inp
          inputPlaytime := (sonicInputFrames { s with inputBuffer := inp } : ℚ) *
            s.samplePeriod / (s.speed / s.pitch) } := (congrArg Prod.fst h1).symm
      subst h2
      show (sonicInputFrames { s with inputBuffer := inp } : ℚ) * s.samplePeriod /
          (s.speed / s.pitch) =
        (sonicInputFrames { s with inputBuffer := inp } : ℚ) * s.samplePeriod * s.pitch / s.speed
      exact div_div_eq_mul_div _ _ _
  · unfold streamAddFloatSamples at hs
    obtain ⟨⟨inp, e0⟩, hadd⟩ : ∃ r, sampleAddFloatSamples s.numChannels s.inputBuffer fsamples = r :=
      ⟨_, rfl⟩
    cases e0 with
    | some e =>
      simp only [hadd] at hs
      exact Option.noConfusion (congrArg Prod.snd hs)
    | none =>
      simp only [hadd] at hs
      have h1 : ({ s with
          inputBuffer := inp
          inputPlaytime := (sonicInputFrames { s with inputBuffer := inp } : ℚ) *
            s.samplePeriod / (s.speed / s.pitch) }, (none : Option GoErr)) = (s', none) := hs
      have h2 : s' = { s with
          inputBuffer := inp
          inputPlaytime := (sonicInputFrames { s with inputBuffer := inp } : ℚ) *
            s.samplePeriod / (s.speed / s.pitch) } := (congrArg Prod.fst h1).symm
      subst h2
      show (sonicInputFrames { s with inputBuffer := inp } : ℚ) * s.samplePeriod /
          (s.speed / s.pitch) =
        (sonicInputFrames { s with inputBuffer := inp } : ℚ) * s.samplePeriod * s.pitch / s.speed
      exact div_div_eq_mul_div _ _ _
  · unfold streamAddByteSamples at hs
    obtain ⟨⟨inp, e0⟩, hadd⟩ : ∃ r, sampleAddByteSamples s.numChannels s.inputBuffer bsamples = r :=
      ⟨_, rfl⟩
    cases e0 with
    | some e =>
      simp only [hadd] at hs
      exact Option.noConfusion (congrArg Prod.snd hs)
    | none =>
      simp only [hadd] at hs
      have h1 : ({ s with
          inputBuffer := inp
          inputPlaytime := (sonicInputFrames { s with inputBuffer := inp } : ℚ) *
            s.samplePeriod / (s.speed / s.pitch) }, (none : Option GoErr)) = (s', none) := hs
      have h2 : s' = { s with
          inputBuffer := inp
          inputPlaytime := (sonicInputFrames { s with inputBuffer := inp } : ℚ) *
            s.samplePeriod / (s.speed / s.pitch) } := (congrArg Prod.fst h1).symm
      subst h2
      show (sonicInputFrames { s with inputBuffer := inp } : ℚ) * s.samplePeriod /
          (s.speed / s.pitch) =
        (sonicInputFrames { s with inputBuffer := inp } : ℚ) * s.samplePeriod * s.pitch / s.speed
      exact div_div_eq_mul_div _ _ _
  · unfold sonicAddEmptySamples at hs
    obtain ⟨⟨inp, cur, e0⟩, hadd⟩ : ∃ r, sampleWriteEmpty s.numChannels s.inputBuffer n = r :=
      ⟨_, rfl⟩
    cases e0 with
    | some e =>
      simp only [hadd] at hs
      exact Option.noConfusion (congrArg Prod.snd hs)
    | none =>
      simp only [hadd] at hs
      have h1 : (updateInputPlaytime { s with inputBuffer := inp }, (none : Option GoErr)) =
          (s', none) := hs
      have h2 : s' = updateInputPlaytime { s with inputBuffer := inp } :=
        (congrArg Prod.fst h1).symm
      subst h2
      rfl
  · unfold returnRawSlice at hs
    have h2 : s' = updateInputPlaytime
        { s with inputBuffer :=
            s.inputBuffer ++ slice.take (slice.length / s.numChannels * s.numChannels) } :=
      (congrArg Prod.fst hs).symm
    subst h2
    rfl

/-- Witness for the amended C5 theorem: one sample on a fresh mono stream at
sample rate 400 establishes the invariant. -/
theorem c5_input_playtime_after_mutators_witness :
    (streamAddSamples (newSonic 400 1) [3]).1.inputPlaytime =
      (sonicInputFrames (streamAddSamples (newSonic 400 1) [3]).1 : ℚ) *
        (streamAddSamples (newSonic 400 1) [3]).1.samplePeriod *
        (streamAddSamples (newSonic 400 1) [3]).1.pitch /
        (streamAddSamples (newSonic 400 1) [3]).1.speed :=
  c5_input_playtime_after_mutators (newSonic 400 1) (streamAddSamples (newSonic 400 1) [3]).1
    (Or.inl ⟨[3], by with_unfolding_all decide⟩)

/-! ## Claim C1 -/

/-- The identity configuration of the claim: all ratios 1, no pending input,
a positive sample period and at least one channel. -/
def IdentityState (s : Sonic) : Prop :=
  s.speed = 1 ∧ s.pitch = 1 ∧ s.erate = 1 ∧ s.volume = 1 ∧
    s.inputBuffer = [] ∧ 0 < s.samplePeriod ∧ 1 ≤ s.numChannels

/-- `Buffer.MoveAllTo` appends the whole unread source to the destination. -/
theorem bufferMoveAllTo_eq (src dst : List ℤ) :
    bufferMoveAllTo src dst = ([], dst ++ src, none) := by
  by_cases h1 : src.isEmpty
  · obtain rfl : src = [] := by simpa using h1
    simp [bufferMoveAllTo]
  · have hr : bufferReadSlice src (src.length : ℤ) = ([], src, none) := by
      unfold bufferReadSlice
      rw [if_neg h1, if_neg (by omega)]
      simp only []
      have hk : min ((src.length : ℤ)).toNat src.length = src.length := by omega
      rw [hk]
      simp
    unfold bufferMoveAllTo
    rw [if_neg h1]
    simp only [hr]

/-- `SampleBuffer.MoveAllTo` with matching channel counts appends the whole
unread source to the destination. -/
theorem sampleMoveAllTo_eq (ch : ℕ) (src dst : List ℤ) :
    sampleMoveAllTo ch ch src dst = ([], dst ++ src, none) := by
  unfold sampleMoveAllTo
  rw [if_neg (show ¬ch ≠ ch from fun h => h rfl)]
  exact bufferMoveAllTo_eq src dst

/-- `processStreamInput` is the identity on a state with no input frames. -/
theorem processStreamInput_empty (t : Sonic) (h0 : sonicInputFrames t = 0) :
    processStreamInput t = (t, none) := by
  unfold processStreamInput
  simp only []
  rw [if_pos h0]

/-- On an identity-ratio state whose `inputPlaytime` matches its input
length, `processStreamInput` moves the whole input to the output verbatim. -/
theorem processStreamInput_identity (t : Sonic)
    (hsp : t.speed = 1) (hpi : t.pitch = 1) (her : t.erate = 1) (hvo : t.volume = 1)
    (hspp : 0 < t.samplePeriod) (hpos : 1 ≤ sonicInputFrames t)
    (hpt : t.inputPlaytime = (sonicInputFrames t : ℚ) * t.samplePeriod) :
    processStreamInput t =
      ({ t with
          inputBuffer := []
          outputBuffer := t.outputBuffer ++ t.inputBuffer
          inputPlaytime := 0 }, none) := by
  have hmv : moveInputToOutput t =
      ({ t with
          inputBuffer := []
          outputBuffer := t.outputBuffer ++ t.inputBuffer
          inputPlaytime := 0 }, none) := by
    unfold moveInputToOutput
    simp only []
    rw [sampleMoveAllTo_eq]
  have hF : (0:ℚ) < (sonicInputFrames t : ℚ) := by exact_mod_cast hpos
  have hne : (sonicInputFrames t : ℚ) * t.samplePeriod ≠ 0 := ne_of_gt (mul_pos hF hspp)
  unfold processStreamInput
  simp only []
  rw [if_neg (by omega : ¬sonicInputFrames t = 0)]
  rw [hpt, div_self hne]
  rw [if_neg (by norm_num : ¬((1:ℚ) > 1.00001 ∨ (1:ℚ) < 0.99999))]
  simp only [hmv, her, hvo, ne_eq, not_true_eq_false, false_and, if_false]

/-- `Stream.Write` on an identity state appends the written samples to the
output buffer and preserves the identity configuration. -/
theorem streamWrite_identity (s : Sonic) (xs : List ℤ) (hid : IdentityState s)
    (hal : xs.length % s.numChannels = 0) :
    (streamWrite s xs).2 = none ∧
      (streamWrite s xs).1.outputBuffer = s.outputBuffer ++ xs ∧
      IdentityState (streamWrite s xs).1 ∧
      (streamWrite s xs).1.numChannels = s.numChannels := by
  obtain ⟨hsp, hpi, her, hvo, hin, hspp, hch⟩ := hid
  have hadd : streamAddSamples s xs = ({ s with
      inputBuffer := xs
      inputPlaytime := (sonicInputFrames { s with inputBuffer := xs } : ℚ) *
        s.samplePeriod }, none) := by
    unfold streamAddSamples sampleAddSamples sampleWriteSlice bufferWriteSlice
    rw [if_neg (by simp [hal]), hin, List.nil_append, hsp, hpi]
    norm_num
  by_cases hlen : xs.length = 0
  · obtain rfl : xs = [] := by
      cases xs with
      | nil => rfl
      | cons a l => exact absurd hlen (by simp)
    unfold streamWrite
    simp only [hadd]
    rw [processStreamInput_empty ({ s with
        inputBuffer := ([] : List ℤ)
        inputPlaytime := (sonicInputFrames { s with inputBuffer := ([] : List ℤ) } : ℚ) *
          s.samplePeriod }) (by simp [sonicInputFrames, sampleLen])]
    exact ⟨rfl, by simp, ⟨hsp, hpi, her, hvo, rfl, hspp, hch⟩, rfl⟩
  · have hchle : s.numChannels ≤ xs.length :=
      Nat.le_of_dvd (by omega) (Nat.dvd_of_mod_eq_zero hal)
    have hpos : 1 ≤ sonicInputFrames { s with
        inputBuffer := xs
        inputPlaytime := (sonicInputFrames { s with inputBuffer := xs } : ℚ) *
          s.samplePeriod } := by
      show 1 ≤ xs.length / s.numChannels
      exact (Nat.one_le_div_iff (by omega)).mpr hchle
    unfold streamWrite
    simp only [hadd]
    rw [processStreamInput_identity ({ s with
        inputBuffer := xs
        inputPlaytime := (sonicInputFrames { s with inputBuffer := xs } : ℚ) *
          s.samplePeriod }) hsp hpi her hvo hspp hpos rfl]
    exact ⟨rfl, rfl, ⟨hsp, hpi, her, hvo, rfl, hspp, hch⟩, rfl⟩

/-- `Stream.Read` splits the output buffer (returned slice ++ remainder) and
changes no other field. -/
theorem streamRead_fields (s : Sonic) (n : ℤ) :
    (streamRead s n).2.1 ++ (streamRead s n).1.outputBuffer = s.outputBuffer ∧
      (streamRead s n).1.inputBuffer = s.inputBuffer ∧
      (streamRead s n).1.speed = s.speed ∧
      (streamRead s n).1.pitch = s.pitch ∧
      (streamRead s n).1.erate = s.erate ∧
      (streamRead s n).1.volume = s.volume ∧
      (streamRead s n).1.samplePeriod = s.samplePeriod ∧
      (streamRead s n).1.numChannels = s.numChannels := by
  unfold streamRead sampleReadSlice bufferReadSlice
  split_ifs with h1 h2
  · refine ⟨?_, rfl, rfl, rfl, rfl, rfl, rfl, rfl⟩
    show ([] : List ℤ) ++ [] = s.outputBuffer
    rw [List.nil_append]
    exact (by simpa using h1 : s.outputBuffer = []).symm
  · refine ⟨?_, rfl, rfl, rfl, rfl, rfl, rfl, rfl⟩
    show ([] : List ℤ) ++ s.outputBuffer = s.outputBuffer
    exact List.nil_append _
  · refine ⟨?_, rfl, rfl, rfl, rfl, rfl, rfl, rfl⟩
    exact List.take_append_drop _ _

/-- `writtenOf` distributes over a leading `write`. -/
theorem writtenOf_cons_write (xs : List ℤ) (rest : List StreamOp) :
    writtenOf (.write xs :: rest) = xs ++ writtenOf rest := rfl

/-- `writtenOf` ignores a leading `read`. -/
theorem writtenOf_cons_read (n : ℕ) (rest : List StreamOp) :
    writtenOf (.read n :: rest) = writtenOf rest := by
  show [] ++ writtenOf rest = writtenOf rest
  exact List.nil_append _

/-- The round-trip invariant, by induction over the operation sequence:
collected reads plus the leftover output equal the initial output plus
everything written, and the identity configuration persists. -/
theorem runStreamOps_identity (ops : List StreamOp) :
    ∀ (s : Sonic), IdentityState s → alignedOps s.numChannels ops →
      (runStreamOps s ops).2.flatten ++ (runStreamOps s ops).1.outputBuffer =
          s.outputBuffer ++ writtenOf ops ∧
        IdentityState (runStreamOps s ops).1 := by
  induction ops with
  | nil =>
    intro s hid _
    exact ⟨by simp [runStreamOps, writtenOf], hid⟩
  | cons op rest ih =>
    intro s hid hal
    cases op with
    | write xs =>
      obtain ⟨he, hout, hid1, hch1⟩ := streamWrite_identity s xs hid (hal xs (by simp))
      have hal1 : alignedOps (streamWrite s xs).1.numChannels rest := by
        rw [hch1]
        intro ys hys
        exact hal ys (by simp [hys])
      obtain ⟨hflat, hid2⟩ := ih (streamWrite s xs).1 hid1 hal1
      unfold runStreamOps
      simp only []
      refine ⟨?_, hid2⟩
      rw [writtenOf_cons_write, hflat, hout, List.append_assoc]
    | read n =>
      obtain ⟨hsplit, hinEq, hspEq, hpiEq, herEq, hvoEq, hsppEq, hchEq⟩ :=
        streamRead_fields s (n : ℤ)
      obtain ⟨hspd, hpit, hert, hvol, hinb, hsppos, hchn⟩ := hid
      have hid1 : IdentityState (streamRead s (n : ℤ)).1 :=
        ⟨hspEq.trans hspd, hpiEq.trans hpit, herEq.trans hert, hvoEq.trans hvol,
          hinEq.trans hinb, hsppEq ▸ hsppos, hchEq ▸ hchn⟩
      have hal1 : alignedOps (streamRead s (n : ℤ)).1.numChannels rest := by
        rw [hchEq]
        intro ys hys
        exact hal ys (by simp [hys])
      obtain ⟨hflat, hid2⟩ := ih (streamRead s (n : ℤ)).1 hid1 hal1
      unfold runStreamOps
      simp only []
      refine ⟨?_, hid2⟩
      rw [writtenOf_cons_read, List.flatten_cons, List.append_assoc, hflat,
        ← List.append_assoc, hsplit]

/-- C1 (confirmed): on a fresh stream with all ratios at 1, for any sequence
of frame-aligned `Write` and `Read` calls, the concatenation of the slices
returned by `Read` followed by the frames still in the output buffer equals
the concatenation of everything written, and no frames linger in the input
buffer. -/
theorem c1_roundtrip (sampleRate numChannels : ℕ) (hsr : 1 ≤ sampleRate)
    (hch : 1 ≤ numChannels) (ops : List StreamOp)
    (hal : alignedOps numChannels ops) :
    ((runStreamOps (newSonic sampleRate numChannels) ops).2.flatten ++
        (runStreamOps (newSonic sampleRate numChannels) ops).1.outputBuffer =
      writtenOf ops) ∧
    (runStreamOps (newSonic sampleRate numChannels) ops).1.inputBuffer = [] := by
  have hid : IdentityState (newSonic sampleRate numChannels) := by
    refine ⟨rfl, rfl, rfl, rfl, rfl, ?_, hch⟩
    show (0:ℚ) < 1 / (sampleRate : ℚ)
    have hq : (0:ℚ) < (sampleRate : ℚ) := by exact_mod_cast hsr
    positivity
  obtain ⟨hflat, hid1⟩ := runStreamOps_identity ops (newSonic sampleRate numChannels) hid hal
  constructor
  · rw [show (newSonic sampleRate numChannels).outputBuffer = [] from rfl,
      List.nil_append] at hflat
    exact hflat
  · exact hid1.2.2.2.2.1

/-- Witness for C1: sample rate 400, one channel, two writes interleaved
with two reads. -/
theorem c1_roundtrip_witness :
    (((runStreamOps (newSonic 400 1)
          [.write [1, 2], .read 1, .write [3], .read 5]).2.flatten ++
        (runStreamOps (newSonic 400 1)
          [.write [1, 2], .read 1, .write [3], .read 5]).1.outputBuffer =
      writtenOf [.write [1, 2], .read 1, .write [3], .read 5]) ∧
    (runStreamOps (newSonic 400 1)
        [.write [1, 2], .read 1, .write [3], .read 5]).1.inputBuffer = []) :=
  c1_roundtrip 400 1 (by decide) (by decide)
    [.write [1, 2], .read 1, .write [3], .read 5]
    (fun xs _ => Nat.mod_one xs.length)

/-! ## Claim C6 -/

/-- C6 (confirmed): `prevPeriodBetter(minDiff, maxDiff, preferNewPeriod)`
returns true iff `minDiff ≠ 0` and `prevPeriod ≠ 0` and, when
`preferNewPeriod` holds, `maxDiff ≤ 3*minDiff` and `2*minDiff > 3*prevMinDiff`;
when it does not, `minDiff > prevMinDiff` (equality rejects the previous
period). -/
theorem c6_prevPeriodBetter_characterisation
    (prevPeriod prevMinDiff minDiff maxDiff : ℤ) (preferNewPeriod : Bool) :
    prevPeriodBetter prevPeriod prevMinDiff minDiff maxDiff preferNewPeriod = true ↔
      minDiff ≠ 0 ∧ prevPeriod ≠ 0 ∧
        (preferNewPeriod = true → maxDiff ≤ 3 * minDiff ∧ 2 * minDiff > 3 * prevMinDiff) ∧
        (preferNewPeriod = false → minDiff > prevMinDiff) := by
  unfold prevPeriodBetter
  cases preferNewPeriod <;> split_ifs <;> simp_all <;> omega

/-! ## Claim C10 -/

/-- C10 (code_bug): `Buffer.At` is claimed to be safe and total, returning
the `n`-th unread element for `0 ≤ n < Len` and `EndOfStream` for every
`n ≥ Len`.  On a buffer of one unread element `[10]`: `At 0` succeeds and
`At 2` reports `EndOfStream`, but the boundary call `At 1` (i.e. `At Len`)
passes the skewed guard `Len < n` and indexes one element past the live
region — a runtime panic (`fault`) instead of the claimed `EndOfStream`. -/
theorem c10_bufferAt_boundary_fault :
    bufferAt [10] 0 = (10, none) ∧
    bufferAt [10] 1 = (0, some GoErr.fault) ∧
    bufferAt [10] 2 = (0, some GoErr.eof) := by
  decide

/-! ## Claim C9 -/

/-- The `erate = rate * pitch` invariant survives any single setter. -/
theorem applySetter_erate (s : Sonic) (op : SetterOp)
    (h : s.erate = s.rate * s.pitch) :
    (applySetter s op).erate = (applySetter s op).rate * (applySetter s op).pitch := by
  cases op <;>
    simp [applySetter, setSpeed, setPitch, setRate, setVolume, setQuality,
      setUseSinOverlap, updateInputPlaytime, h]

/-- The invariant survives any setter sequence. -/
theorem applySetters_erate (ops : List SetterOp) (s : Sonic)
    (h : s.erate = s.rate * s.pitch) :
    (applySetters s ops).erate = (applySetters s ops).rate * (applySetters s ops).pitch := by
  induction ops generalizing s with
  | nil => simpa [applySetters]
  | cons op rest ih =>
    have : applySetters s (op :: rest) = applySetters (applySetter s op) rest := rfl
    rw [this]
    exact ih _ (applySetter_erate s op h)

/-- C9 (confirmed): after `NewSonic` and any sequence of `SetSpeed`,
`SetPitch`, `SetRate`, `SetVolume`, `SetQuality` and `SetUseSinOverlap`
calls, the cached `erate` equals `rate * pitch` for the current setter
values. -/
theorem c9_erate_invariant (sampleRate numChannels : ℕ) (ops : List SetterOp) :
    (applySetters (newSonic sampleRate numChannels) ops).erate =
      (applySetters (newSonic sampleRate numChannels) ops).rate *
        (applySetters (newSonic sampleRate numChannels) ops).pitch := by
  apply applySetters_erate
  simp [newSonic]

/-! ## Claim C7 -/

/-- C7 (confirmed): on a non-empty, frame-aligned buffer and a valid frame
position, `SampleBuffer.Scale(fromFrame, v256)` succeeds, leaves the samples
before `fromFrame` unchanged and maps every later sample `s` to
`clamp((v256 * s) >> 8, -32768, 32767)` (arithmetic shift); in particular
`v256 = 256` leaves every in-range sample unchanged and `v256 = 512` doubles
with saturation at the `int16` bounds. -/
theorem c7_scale_spec (ch : ℕ) (buf : List ℤ) (at_ v256 : ℤ)
    (_hch : 1 ≤ ch) (hne : buf ≠ []) (hdvd : buf.length % ch = 0)
    (hat : 0 ≤ at_) (hle : at_ * ch ≤ buf.length) :
    sampleScale ch buf at_ v256 =
      (buf.take (at_ * ch).toNat ++
        (buf.drop (at_ * ch).toNat).map
          (fun x => max (-32768) (min 32767 (Int.fdiv (v256 * x) 256))), none) ∧
    (∀ x : ℤ, -32768 ≤ x → x ≤ 32767 → scaleInt16 256 x = x) ∧
    (∀ x : ℤ, -32768 ≤ x → x ≤ 32767 →
      scaleInt16 512 x = max (-32768) (min 32767 (2 * x))) := by
  have hclamp : scaleInt16 v256 =
      fun x => max (-32768) (min 32767 (Int.fdiv (v256 * x) 256)) :=
    funext (scaleInt16_eq_clamp v256)
  refine ⟨?_, ?_, ?_⟩
  · have hrsa : bufferReadSliceAt buf (at_ * ch) =
        (buf.take (at_ * ch).toNat, buf.drop (at_ * ch).toNat, none) := by
      unfold bufferReadSliceAt
      rw [if_neg (by simpa [List.isEmpty_iff] using hne),
        if_neg (by
          push_neg
          exact ⟨mul_nonneg hat (by exact_mod_cast Nat.zero_le ch), hle⟩)]
    have h1 : (at_ * ch).toNat = at_.toNat * ch := by
      rcases Int.eq_ofNat_of_zero_le hat with ⟨k, rfl⟩
      rw [← Int.natCast_mul]
      exact Int.toNat_natCast _
    have hlen : (List.map (scaleInt16 v256) (buf.drop (at_ * ch).toNat)).length % ch = 0 := by
      simp only [List.length_map, List.length_drop, h1]
      obtain ⟨c, hc⟩ : ch ∣ buf.length - at_.toNat * ch :=
        Nat.dvd_sub' (Nat.dvd_of_mod_eq_zero hdvd) (Dvd.intro_left _ rfl)
      rw [hc]
      exact Nat.mul_mod_right ch c
    unfold sampleScale
    rw [hrsa]
    simp only [sampleWriteSlice, bufferWriteSlice, hlen, ne_eq, not_true_eq_false,
      if_false]
    rw [hclamp]
  · intro x h1 h2
    rw [scaleInt16_eq_clamp]
    rw [Int.mul_fdiv_cancel_left x (by norm_num)]
    omega
  · intro x h1 h2
    rw [scaleInt16_eq_clamp]
    have h3 : (512 : ℤ) * x = 256 * (2 * x) := by ring
    rw [h3, Int.mul_fdiv_cancel_left (2 * x) (by norm_num)]

/-! ## Claim C2 -/

/-- C2 (counterexample): a zero-copy stream with identity parameters, one
frame `[100]` pending in the output buffer and `[5, 7]` in the input buffer.
`processAndRead 2` (the body of `Process`) must serve 2 frames from partial
buffers; the claim says they are cross-faded per `cf`, giving `[100, 7]`,
but the code merely moves one input frame behind the output frame and
returns the concatenation `[100, 5]`. -/
theorem c2_crossfade_counterexample :
    (processAndRead { newSonic 400 1 with
        inputBuffer := [5, 7], outputBuffer := [100] } 2).2.1 = [100, 5] ∧
    crossFade [5, 7] [100] = [100, 7] ∧
    (processAndRead { newSonic 400 1 with
        inputBuffer := [5, 7], outputBuffer := [100] } 2).2.1 ≠
      crossFade [5, 7] [100] := by
  decide

/-- Fast-path helper: with identity parameters and `0 < o < n ≤ i + o`, the
`processAndRead` default case returns the pending output frames followed by
the first `n - o` input frames. -/
theorem processAndRead_partial (s : Sonic) (n i o : ℕ)
    (hch : 1 ≤ s.numChannels)
    (hspeed : s.speed = 1) (herate : s.erate = 1) (hvol : s.volume = 1)
    (hi : s.inputBuffer.length = i * s.numChannels)
    (ho : s.outputBuffer.length = o * s.numChannels)
    (ho1 : 0 < o) (hon : o < n) (hno : n ≤ i + o) :
    (processAndRead s (n : ℤ)).2 =
      (s.outputBuffer ++ s.inputBuffer.take ((n - o) * s.numChannels), none) := by
  have hIL : sonicInputFrames s = i := by
    unfold sonicInputFrames sampleLen
    rw [hi]
    exact Nat.mul_div_cancel _ (by omega)
  have hOL : sonicOutputFrames s = o := by
    unfold sonicOutputFrames sampleLen
    rw [ho]
    exact Nat.mul_div_cancel _ (by omega)
  have hin_ne : s.inputBuffer ≠ [] := by
    intro h
    rw [h] at hi
    simp at hi
    rcases hi with h' | h' <;> omega
  have hk : ((n : ℤ) - (o : ℕ)) * (s.numChannels : ℕ) =
      (((n - o) * s.numChannels : ℕ) : ℤ) := by
    rw [Nat.cast_mul, Nat.cast_sub hon.le]
  have hmv : sampleMoveTo s.numChannels s.numChannels s.inputBuffer s.outputBuffer
      ((n : ℤ) - (o : ℕ)) =
      (s.inputBuffer.drop ((n - o) * s.numChannels),
        s.outputBuffer ++ s.inputBuffer.take ((n - o) * s.numChannels), none) := by
    unfold sampleMoveTo
    rw [if_neg (by simp)]
    unfold bufferMoveTo
    rw [if_neg (by simpa [List.isEmpty_iff] using hin_ne)]
    rw [hk, bufferReadSlice_of_le _ _ hin_ne (by rw [hi]; exact Nat.mul_le_mul_right _ (by omega))]
  have hout_ne : s.outputBuffer ++ s.inputBuffer.take ((n - o) * s.numChannels) ≠ [] := by
    intro h
    rcases List.append_eq_nil.mp h with ⟨h1, _⟩
    rw [h1] at ho
    simp at ho
    rcases ho with h' | h' <;> omega
  have hlen2 : (s.outputBuffer ++ s.inputBuffer.take ((n - o) * s.numChannels)).length
      = n * s.numChannels := by
    rw [List.length_append, List.length_take, ho, hi]
    have : (n - o) * s.numChannels ≤ i * s.numChannels :=
      Nat.mul_le_mul_right _ (by omega)
    rw [min_eq_left this]
    have : o * s.numChannels + (n - o) * s.numChannels = n * s.numChannels := by
      rw [← Nat.add_mul]
      congr 1
      omega
    omega
  have hrd : sampleReadSlice s.numChannels
      (s.outputBuffer ++ s.inputBuffer.take ((n - o) * s.numChannels)) (n : ℤ) =
      ([], s.outputBuffer ++ s.inputBuffer.take ((n - o) * s.numChannels), none) := by
    unfold sampleReadSlice
    have hcast : (n : ℤ) * (s.numChannels : ℕ) = ((n * s.numChannels : ℕ) : ℤ) := by
      push_cast
      ring
    rw [hcast, bufferReadSlice_of_le _ _ hout_ne (by rw [hlen2])]
    rw [← hlen2, List.drop_length, List.take_length]
  have h0 : ¬((n : ℤ) = 0) := by omega
  have hc1 : ¬((i : ℤ) + (o : ℤ) < (n : ℤ)) := by omega
  have hc2 : ¬(o = 0) := by omega
  have hc3 : ¬((o : ℤ) ≥ (n : ℤ)) := by omega
  unfold processAndRead
  rw [if_neg h0, if_pos ⟨hspeed, herate, hvol⟩]
  simp only [hIL, hOL]
  rw [if_neg hc1, if_neg hc2, if_neg hc3, hmv]
  simp only [hrd]

/-- C2 (amended): in `ZeroCopyStream.processAndRead` with
`speed == erate == volume == 1`, whenever the output buffer holds `o` frames
with `0 < o < n` and input plus output together hold at least `n` frames,
the `n` returned frames are the pending output frames followed by the first
`n - o` input frames, moved through the output buffer with no cross-fade
applied, and the returned error is nil. -/
theorem c2_fastpath_concatenation (s : Sonic) (n i o : ℕ)
    (hch : 1 ≤ s.numChannels)
    (hspeed : s.speed = 1) (herate : s.erate = 1) (hvol : s.volume = 1)
    (hi : s.inputBuffer.length = i * s.numChannels)
    (ho : s.outputBuffer.length = o * s.numChannels)
    (ho1 : 0 < o) (hon : o < n) (hno : n ≤ i + o) :
    (processAndRead s (n : ℤ)).2 =
      (s.outputBuffer ++ s.inputBuffer.take ((n - o) * s.numChannels), none) :=
  processAndRead_partial s n i o hch hspeed herate hvol hi ho ho1 hon hno

/-- Witness for the amended C2 theorem at the counterexample state. -/
theorem c2_fastpath_concatenation_witness :
    (processAndRead { newSonic 400 1 with
        inputBuffer := [5, 7], outputBuffer := [100] } ((2 : ℕ) : ℤ)).2 =
      (({ newSonic 400 1 with
            inputBuffer := [5, 7], outputBuffer := [100] } : Sonic).outputBuffer ++
        ({ newSonic 400 1 with
            inputBuffer := [5, 7], outputBuffer := [100] } : Sonic).inputBuffer.take
          ((2 - 1) * 1), none) :=
  c2_fastpath_concatenation
    { newSonic 400 1 with inputBuffer := [5, 7], outputBuffer := [100] } 2 2 1
    (by decide) (by decide) (by decide) (by decide) (by decide) (by decide)
    (by decide) (by decide) (by decide)

/-- Fast-path helper: with identity parameters, an empty output buffer and
`1 ≤ n ≤ i` input frames, `processAndRead` serves `n` frames straight from
the input buffer. -/
theorem processAndRead_no_output (s : Sonic) (n i : ℕ)
    (hch : 1 ≤ s.numChannels)
    (hid : s.speed = 1 ∧ s.erate = 1 ∧ s.volume = 1)
    (hi : s.inputBuffer.length = i * s.numChannels)
    (ho : s.outputBuffer = [])
    (hn : 1 ≤ n) (hni : n ≤ i) :
    (processAndRead s (n : ℤ)).2 = (s.inputBuffer.take (n * s.numChannels), none) := by
  have hIL : sonicInputFrames s = i := by
    unfold sonicInputFrames sampleLen
    rw [hi]
    exact Nat.mul_div_cancel _ (by omega)
  have hOL : sonicOutputFrames s = 0 := by
    simp [sonicOutputFrames, sampleLen, ho]
  have hin_ne : s.inputBuffer ≠ [] := by
    intro h
    rw [h] at hi
    simp at hi
    rcases hi with h' | h' <;> omega
  have hrd : sampleReadSlice s.numChannels s.inputBuffer (n : ℤ) =
      (s.inputBuffer.drop (n * s.numChannels),
        s.inputBuffer.take (n * s.numChannels), none) := by
    unfold sampleReadSlice
    have hcast : (n : ℤ) * (s.numChannels : ℕ) = ((n * s.numChannels : ℕ) : ℤ) := by
      push_cast
      ring
    rw [hcast, bufferReadSlice_of_le _ _ hin_ne
      (by rw [hi]; exact Nat.mul_le_mul_right _ hni)]
  have hc1 : ¬((i : ℤ) + ((0 : ℕ) : ℤ) < (n : ℤ)) := by omega
  unfold processAndRead
  rw [if_neg (show ¬((n : ℤ) = 0) by omega), if_pos hid]
  simp only [hIL, hOL]
  rw [if_neg hc1, if_pos trivial]
  simp only [hrd]

/-- Fast-path helper: with identity parameters and at least `n ≥ 1` frames
already in the output buffer, `processAndRead` serves `n` frames straight
from the output buffer. -/
theorem processAndRead_from_output (s : Sonic) (n o : ℕ)
    (hch : 1 ≤ s.numChannels)
    (hid : s.speed = 1 ∧ s.erate = 1 ∧ s.volume = 1)
    (ho : s.outputBuffer.length = o * s.numChannels)
    (hn : 1 ≤ n) (hno : n ≤ o) :
    (processAndRead s (n : ℤ)).2 = (s.outputBuffer.take (n * s.numChannels), none) := by
  have hOL : sonicOutputFrames s = o := by
    unfold sonicOutputFrames sampleLen
    rw [ho]
    exact Nat.mul_div_cancel _ (by omega)
  have hout_ne : s.outputBuffer ≠ [] := by
    intro h
    rw [h] at ho
    simp at ho
    rcases ho with h' | h' <;> omega
  have hrd : sampleReadSlice s.numChannels s.outputBuffer (n : ℤ) =
      (s.outputBuffer.drop (n * s.numChannels),
        s.outputBuffer.take (n * s.numChannels), none) := by
    unfold sampleReadSlice
    have hcast : (n : ℤ) * (s.numChannels : ℕ) = ((n * s.numChannels : ℕ) : ℤ) := by
      push_cast
      ring
    rw [hcast, bufferReadSlice_of_le _ _ hout_ne
      (by rw [ho]; exact Nat.mul_le_mul_right _ hno)]
  have hc1 : ¬((sonicInputFrames s : ℤ) + (o : ℤ) < (n : ℤ)) := by
    have : (0 : ℤ) ≤ (sonicInputFrames s : ℤ) := by omega
    omega
  unfold processAndRead
  rw [if_neg (show ¬((n : ℤ) = 0) by omega), if_pos hid]
  simp only [hOL]
  rw [if_neg hc1, if_neg (show ¬(o = 0) by omega),
    if_pos (show ((o : ℕ) : ℤ) ≥ (n : ℤ) by omega)]
  simp only [hrd]

/-! ## Claim C8 -/

/-- C8 (counterexample): a fresh identity-parameter zero-copy stream whose
buffers jointly hold 0 < 1 frames before the call.  `Process(1, fill)` with a
successful fill of `[7]` commits that frame and immediately returns it — a
non-empty slice — rather than the empty slice the claim requires whenever
the buffers hold fewer than `n` frames. -/
theorem c8_process_counterexample :
    sonicInputFrames (newSonic 400 1) + sonicOutputFrames (newSonic 400 1) < 1 ∧
    (zcProcess (newSonic 400 1) 1 [7]).2 = ([7], none) ∧
    (zcProcess (newSonic 400 1) 1 [7]).2.1 ≠ ([] : List ℤ) := by
  decide

/-- C8 (amended): `Process(n, fill)` with a successful fill never reports
`EndOfStream`.  After the borrow commit the buffers always hold at least `n`
frames, so on the fast path (`speed = erate = volume = 1`) it returns
exactly `n` frames with a nil error; on the slow path, whenever processing
succeeds and leaves fewer than `n` output frames it returns the empty
(nil) slice and a nil error — the idle signal. -/
theorem c8_process_idle_signal (s : Sonic) (n i o : ℕ) (fill : List ℤ)
    (hch : 1 ≤ s.numChannels)
    (hi : s.inputBuffer.length = i * s.numChannels)
    (ho : s.outputBuffer.length = o * s.numChannels)
    (hn : 1 ≤ n)
    (hfill : fill.length = n * s.numChannels) :
    (s.speed = 1 ∧ s.erate = 1 ∧ s.volume = 1 →
      (zcProcess s (n : ℤ) fill).2.1.length = n * s.numChannels ∧
      (zcProcess s (n : ℤ) fill).2.2 = none) ∧
    (∀ s1 : Sonic, ¬(s.speed = 1 ∧ s.erate = 1 ∧ s.volume = 1) →
      processStreamInput (updateInputPlaytime
        { s with inputBuffer := s.inputBuffer ++ fill }) = (s1, none) →
      sonicOutputFrames s1 < n →
      (zcProcess s (n : ℤ) fill).2 = ([], none)) := by
  have htake : fill.take ((fill.length / s.numChannels) * s.numChannels) = fill := by
    rw [hfill, Nat.mul_div_cancel _ (by omega), ← hfill, List.take_length]
  have hzc : zcProcess s (n : ℤ) fill =
      processAndRead (updateInputPlaytime
        { s with inputBuffer := s.inputBuffer ++ fill }) (n : ℤ) := by
    unfold zcProcess returnRawSlice
    simp only [htake]
  have hi1 : (updateInputPlaytime
      { s with inputBuffer := s.inputBuffer ++ fill }).inputBuffer.length =
      (i + n) * (updateInputPlaytime
        { s with inputBuffer := s.inputBuffer ++ fill }).numChannels := by
    show (s.inputBuffer ++ fill).length = (i + n) * s.numChannels
    rw [List.length_append, hi, hfill, Nat.add_mul]
  constructor
  · intro hid
    rw [hzc]
    by_cases ho0 : o = 0
    · have houtnil : (updateInputPlaytime
          { s with inputBuffer := s.inputBuffer ++ fill }).outputBuffer = [] := by
        show s.outputBuffer = []
        apply List.eq_nil_of_length_eq_zero
        rw [ho, ho0, Nat.zero_mul]
      have h2 := processAndRead_no_output
        (updateInputPlaytime { s with inputBuffer := s.inputBuffer ++ fill })
        n (i + n) hch hid hi1 houtnil hn (by omega)
      constructor
      · simp only [h2]
        show (List.take (n * s.numChannels) (s.inputBuffer ++ fill)).length =
          n * s.numChannels
        rw [List.length_take, List.length_append, hi, hfill]
        omega
      · simp only [h2]
    · by_cases hge : n ≤ o
      · have h2 := processAndRead_from_output
          (updateInputPlaytime { s with inputBuffer := s.inputBuffer ++ fill })
          n o hch hid ho hn hge
        constructor
        · simp only [h2]
          show (List.take (n * s.numChannels) s.outputBuffer).length =
            n * s.numChannels
          rw [List.length_take, ho]
          have : n * s.numChannels ≤ o * s.numChannels :=
            Nat.mul_le_mul_right _ hge
          omega
        · simp only [h2]
      · have h2 := processAndRead_partial
          (updateInputPlaytime { s with inputBuffer := s.inputBuffer ++ fill })
          n (i + n) o hch hid.1 hid.2.1 hid.2.2 hi1 ho (by omega) (by omega) (by omega)
        constructor
        · simp only [h2]
          show (s.outputBuffer ++
            List.take ((n - o) * s.numChannels) (s.inputBuffer ++ fill)).length =
            n * s.numChannels
          rw [List.length_append, List.length_take, List.length_append, hi, hfill, ho]
          have h3 : (n - o) * s.numChannels ≤ i * s.numChannels + n * s.numChannels := by
            have : (n - o) ≤ i + n := by omega
            calc (n - o) * s.numChannels ≤ (i + n) * s.numChannels :=
                  Nat.mul_le_mul_right _ this
              _ = i * s.numChannels + n * s.numChannels := Nat.add_mul i n _
          have h4 : o * s.numChannels + (n - o) * s.numChannels = n * s.numChannels := by
            rw [← Nat.add_mul]
            congr 1
            omega
          omega
        · simp only [h2]
  · intro s1 hnid hproc hlt
    have hnid' : ¬((updateInputPlaytime
        { s with inputBuffer := s.inputBuffer ++ fill }).speed = 1 ∧
        (updateInputPlaytime
          { s with inputBuffer := s.inputBuffer ++ fill }).erate = 1 ∧
        (updateInputPlaytime
          { s with inputBuffer := s.inputBuffer ++ fill }).volume = 1) := hnid
    rw [hzc]
    unfold processAndRead
    rw [if_neg (show ¬((n : ℤ) = 0) by omega), if_neg hnid']
    rw [hproc]
    simp only []
    rw [if_neg (show ¬(((sonicOutputFrames s1 : ℕ) : ℤ) ≥ (n : ℤ)) by omega)]

/-- Witness for the amended C8 theorem: a fresh mono stream, one committed
frame `[7]`, served back in full on the fast path. -/
theorem c8_process_idle_signal_witness :
    ((newSonic 400 1 : Sonic).speed = 1 ∧ (newSonic 400 1 : Sonic).erate = 1 ∧
        (newSonic 400 1 : Sonic).volume = 1 →
      (zcProcess (newSonic 400 1) ((1 : ℕ) : ℤ) [7]).2.1.length =
        1 * (newSonic 400 1 : Sonic).numChannels ∧
      (zcProcess (newSonic 400 1) ((1 : ℕ) : ℤ) [7]).2.2 = none) ∧
    (∀ s1 : Sonic, ¬((newSonic 400 1 : Sonic).speed = 1 ∧
        (newSonic 400 1 : Sonic).erate = 1 ∧ (newSonic 400 1 : Sonic).volume = 1) →
      processStreamInput (updateInputPlaytime
        { newSonic 400 1 with
          inputBuffer := (newSonic 400 1 : Sonic).inputBuffer ++ [7] }) = (s1, none) →
      sonicOutputFrames s1 < 1 →
      (zcProcess (newSonic 400 1) ((1 : ℕ) : ℤ) [7]).2 = ([], none)) :=
  c8_process_idle_signal (newSonic 400 1) 1 0 0 [7]
    (by decide) (by decide) (by decide) (by decide) (by decide)

/-! ## Claim C3 -/

/-- C3 (counterexample): identity parameters, `sampleRate = 400`, input
`[1, 2, 3]`.  The pipeline's `ReadAll` yields `out = [1, 2, 3, 0]`
(`n = 4 ≥ 1`).  With caller capacity 10 the reusing branch runs and
`ChangeSpeed` returns `[1, 2]` — the first `n - 2` elements — not the first
`n - 1 = 3` elements the claim asserts for both branches. -/
theorem c3_changespeed_counterexample :
    (changeSpeedPipeline 400 1 1 1 1 1 [1, 2, 3]).2 = ([1, 2, 3, 0], none) ∧
    ChangeSpeedGo 400 1 1 1 1 1 [1, 2, 3] 10 = ([1, 2], none) ∧
    ChangeSpeedGo 400 1 1 1 1 1 [1, 2, 3] 10 ≠
      (List.take (4 - 1) [1, 2, 3, 0], none) := by
  with_unfolding_all decide

/-- C3 (amended): when the add/Flush/ReadAll pipeline succeeds with
`n = len(out) ≥ 1`, the reallocating branch (`cap(samples) < n`) returns the
first `n - 1` elements of `out`, but the reusing branch
(`cap(samples) ≥ n`) returns only the first `n - 2` elements (and panics
when `n = 1`). -/
theorem c3_changespeed_tail_drop (sampleRate numChannels : ℕ)
    (speed pitch rate volume : ℚ) (samples : List ℤ) (capSamples : ℕ)
    (sOut : Sonic) (out : List ℤ)
    (hrun : changeSpeedPipeline sampleRate numChannels speed pitch rate volume samples =
      (sOut, out, none))
    (hn : 1 ≤ out.length) :
    (capSamples < out.length →
      ChangeSpeedGo sampleRate numChannels speed pitch rate volume samples capSamples =
        (out.take (out.length - 1), none)) ∧
    (out.length ≤ capSamples → 2 ≤ out.length →
      ChangeSpeedGo sampleRate numChannels speed pitch rate volume samples capSamples =
        (out.take (out.length - 2), none)) := by
  unfold ChangeSpeedGo
  rw [hrun]
  constructor
  · intro hcap
    simp only []
    rw [if_pos hcap, if_neg (by omega)]
  · intro hcap h2
    simp only []
    rw [if_neg (by omega)]
    have hmin : min (out.length - 1) out.length = out.length - 1 := by omega
    rw [hmin, if_neg (by omega), List.take_take]
    have hmin2 : min (out.length - 1 - 1) (out.length - 1) = out.length - 2 := by omega
    rw [hmin2]

/-- Witness for the amended C3 theorem at the counterexample run (reusing
branch: first `n - 2` elements; the reallocating case is vacuous at
capacity 10). -/
theorem c3_changespeed_tail_drop_witness :
    (10 < ([1, 2, 3, 0] : List ℤ).length →
      ChangeSpeedGo 400 1 1 1 1 1 [1, 2, 3] 10 =
        (([1, 2, 3, 0] : List ℤ).take (([1, 2, 3, 0] : List ℤ).length - 1), none)) ∧
    (([1, 2, 3, 0] : List ℤ).length ≤ 10 → 2 ≤ ([1, 2, 3, 0] : List ℤ).length →
      ChangeSpeedGo 400 1 1 1 1 1 [1, 2, 3] 10 =
        (([1, 2, 3, 0] : List ℤ).take (([1, 2, 3, 0] : List ℤ).length - 2), none)) :=
  c3_changespeed_tail_drop 400 1 1 1 1 1 [1, 2, 3] 10
    (changeSpeedPipeline 400 1 1 1 1 1 [1, 2, 3]).1 [1, 2, 3, 0]
    (by with_unfolding_all decide) (by decide)

/-- Witness for C7 at a concrete input: one stereo frame kept, one scaled
with `v256 = 512` (`20000` saturates to `32767`, `-5` doubles to `-10`). -/
theorem c7_scale_spec_witness :
    sampleScale 2 [3, 4, -5, 20000] 1 512 =
      ([3, 4, -5, 20000].take ((1 : ℤ) * 2).toNat ++
        ([3, 4, -5, 20000].drop ((1 : ℤ) * 2).toNat).map
          (fun x => max (-32768) (min 32767 (Int.fdiv (512 * x) 256))), none) ∧
    (∀ x : ℤ, -32768 ≤ x → x ≤ 32767 → scaleInt16 256 x = x) ∧
    (∀ x : ℤ, -32768 ≤ x → x ≤ 32767 →
      scaleInt16 512 x = max (-32768) (min 32767 (2 * x))) :=
  c7_scale_spec 2 [3, 4, -5, 20000] 1 512 (by norm_num) (by simp)
    (by norm_num) (by norm_num) (by norm_num)

end SonicGo
